import Mathlib

/-!
# syncctl: the synchronization daemon `syncd/main.go`

A shallow embedding of `src/syncd/main.go`.

* Go strings are Lean `String`s, byte slices are `List UInt8`.
* A Go `error` result is `Option Err` (`none` is `nil`); a Go `(value, error)` result is
  `Except Err value`.
* Everything outside the repository (go-git, `skopeo` run through `os/exec`, `net/http`,
  `crypto/sha256`, `encoding/json`, the in-memory file system) is a collaborator.  The
  collaborators are the fields of `Env W`; the effectful ones transform an abstract world
  `W`, so that the same call may answer differently at different moments.
* Every function of the program returns an `Out`: its Go result, the world it leaves, and
  the list of the events it caused, oldest first.  A collaborator call is recorded with
  its outcome; the return of `mirrorImage`, `mirrorChart` and `mirrorYggdrasil` is recorded
  with the returned error.
* The package-level flag variables are the fields of `Config`.
* `fmt.Errorf` values are kept structured (constructors of `Err`) instead of rendered.
* `defer resp.Body.Close()` and `defer file.Close()` return nothing the program looks at
  and are not modelled.  `git.Clone` on a fresh `memory.NewStorage()` always hands back a
  repository object (its `Init` step cannot fail there), so the repository is part of the
  world and `gitClone` returns only the error.
-/

namespace Syncctl

/-! ## Data model (main.go 45-67) -/

/-- Go `type chart struct`. -/
structure chart where
  Chart : String
  Digest : String
  Version : String
deriving DecidableEq

/-- Go `type image struct`. -/
structure image where
  Digest : String
  Image : String
  Registry : String
  Tag : String
deriving DecidableEq

/-- Go `type yggdrasilRepository struct`. -/
structure yggdrasilRepository where
  Commit : String
  Repository : String
deriving DecidableEq

/-- Go `type manifest struct`. -/
structure manifest where
  Charts : List chart
  Images : List image
  YggdrasilRepository : yggdrasilRepository
deriving DecidableEq

/-- The package-level variables set from the command line (main.go 21-43). -/
structure Config where
  syncInterval : Nat
  manifestGitRepository : String
  armoredKeyRing : String
  sourceRegistry : String
  destinationRegistry : String
  sourceChartRepository : String
  destinationChartRepository : String
  sourceYggdrasilGitRepository : String
  destinationYggdrasilGitRepository : String
deriving DecidableEq

/-! ## Errors, collaborators and events -/

/-- Go `error` values: those a collaborator reports and those the program builds with
`fmt.Errorf`. -/
inductive Err where
  /-- An error reported by a collaborator -/
  | external (msg : String)
  /-- The error `failure mirroring image: %v, output: %v, error: %w` (main.go 81) -/
  | mirrorImageFailure (img : image) (out : String) (cause : Err)
  /-- The error `chart %v not found on %v` (main.go 103) -/
  | chartNotFound (c : chart) (src : String)
  /-- The error `digest for chart %v not matching, expected: %s, got: %s` (main.go 114) -/
  | digestMismatch (c : chart) (expected : String) (got : String)
  /-- The error of main.go 193: the commit carries no signature -/
  | commitNotSigned (id : String)
deriving DecidableEq

/-- The fields of a go-git commit object the program reads. -/
structure Commit where
  ID : String
  PGPSignature : String
deriving DecidableEq

/-- The collaborators of the program over a world `W`. -/
structure Env (W : Type) where
  /-- The error of `git.Clone(memory.NewStorage(), fs, &git.CloneOptions{URL, Depth})` -/
  gitClone : String → Nat → W → Option Err × W
  /-- The call `r.Head()` followed by `head.Hash().String()` -/
  repoHead : W → Except Err String × W
  /-- The call `r.CommitObject(hash)` -/
  commitObject : String → W → Except Err Commit × W
  /-- The error of `commit.Verify(keyRing)` -/
  commitVerify : Commit → String → W → Option Err × W
  /-- The error of `fs.Open(name)` -/
  fsOpen : String → W → Option Err × W
  /-- The call `ioutil.ReadAll(file)` -/
  readAll : W → Except Err (List UInt8) × W
  /-- The call `json.Unmarshal(data, &m)` into a zero `manifest` -/
  jsonUnmarshal : List UInt8 → Except Err manifest
  /-- The call `exec.Command(name, args...).CombinedOutput()` -/
  combinedOutput : String → List String → W → (String × Option Err) × W
  /-- The call `http.Get(url)`: the status code of the response, or the error -/
  httpGet : String → W → Except Err Nat × W
  /-- The call `io.Copy(h, resp.Body)`: the bytes written into the hash, or the error -/
  copyBody : W → Except Err (List UInt8) × W
  /-- The digest `sha256.New()`, `Write`, `Sum(nil)` compute -/
  sha256 : List UInt8 → List UInt8
  /-- The error of `git.Init(memory.NewStorage(), nil)` -/
  gitInit : W → Option Err × W
  /-- The error of `r.CreateRemote(&config.RemoteConfig{Name, URLs: []string{url}})` -/
  createRemote : String → String → W → Option Err × W
  /-- The error of `r.Fetch(&git.FetchOptions{RemoteName, RefSpecs: [refspec]})` -/
  gitFetch : String → String → W → Option Err × W
  /-- The error of `r.Push(&git.PushOptions{RemoteName, RefSpecs: [refspec], Force})` -/
  gitPush : String → String → Bool → W → Option Err × W
  /-- The call `ioutil.ReadFile(name)`, its bytes taken as a string -/
  readFile : String → W → Except Err String × W

/-- What a pass does that is visible outside the program, each with its outcome. -/
inductive Event where
  | gitClone (url : String) (depth : Nat) (err : Option Err)
  | repoHead (res : Except Err String)
  | commitObject (hash : String) (res : Except Err Commit)
  | commitVerify (c : Commit) (keyRing : String) (err : Option Err)
  | fsOpen (name : String) (err : Option Err)
  | readAll (res : Except Err (List UInt8))
  | jsonUnmarshal (data : List UInt8) (res : Except Err manifest)
  | combinedOutput (name : String) (args : List String) (out : String) (err : Option Err)
  | httpGet (url : String) (res : Except Err Nat)
  | copyBody (res : Except Err (List UInt8))
  | gitInit (err : Option Err)
  | createRemote (name : String) (url : String) (err : Option Err)
  | gitFetch (remote : String) (refspec : String) (err : Option Err)
  | gitPush (remote : String) (refspec : String) (force : Bool) (err : Option Err)
  /-- The call `mirrorImage(src, dst, img)` returned `err` -/
  | mirrorImage (src : String) (dst : String) (img : image) (err : Option Err)
  /-- The call `mirrorChart(src, dst, c)` returned `err` -/
  | mirrorChart (src : String) (dst : String) (c : chart) (err : Option Err)
  /-- The call `mirrorYggdrasil(src, dst, y)` returned `err` -/
  | mirrorYggdrasil (src : String) (dst : String) (y : yggdrasilRepository) (err : Option Err)
  /-- The call `log.Printf("Error synchronizing: %v", err)` -/
  | logError (err : Err)
  | readFile (name : String) (res : Except Err String)
  /-- The call `log.Fatal(err)`, which ends the process -/
  | logFatal (err : Err)

/-- The result of running a piece of the program from a world. -/
structure Out (W : Type) (α : Type) where
  val : α
  world : W
  trace : List Event

/-! ## Image mirror (main.go 69-93) -/

/-- The local `srcImage` of `mirrorImage` (main.go 70). -/
def srcImage (src : String) (img : image) : String :=
  src ++ "/" ++ img.Registry ++ "/" ++ img.Image ++ "@" ++ img.Digest

/-- The local `dstImage` of `mirrorImage` (main.go 71-76). -/
def dstImage (src dst : String) (img : image) : String :=
  if img.Tag = "" then srcImage src img
  else dst ++ "/" ++ img.Registry ++ "/" ++ img.Image ++ ":" ++ img.Tag

/-- The arguments `mirrorImage` gives to `skopeo` (main.go 78). -/
def skopeoArgs (src dst : String) (img : image) : List String :=
  ["copy", "--all", "--preserve-digests", "--src-tls-verify=false", "--dest-tls-verify=false",
    "docker://" ++ srcImage src img, "docker://" ++ dstImage src dst img]

/-- Go `mirrorImage` (main.go 69-84). -/
def mirrorImage {W : Type} (E : Env W) (src dst : String) (img : image) (w : W) :
    Out W (Option Err) :=
  match E.combinedOutput "skopeo" (skopeoArgs src dst img) w with
  | ((out, some err), w1) =>
    ⟨some (Err.mirrorImageFailure img out err), w1,
      [Event.combinedOutput "skopeo" (skopeoArgs src dst img) out (some err),
       Event.mirrorImage src dst img (some (Err.mirrorImageFailure img out err))]⟩
  | ((out, none), w1) =>
    ⟨none, w1,
      [Event.combinedOutput "skopeo" (skopeoArgs src dst img) out none,
       Event.mirrorImage src dst img none]⟩

/-- Go `mirrorImages` (main.go 86-93). -/
def mirrorImages {W : Type} (E : Env W) (src dst : String) : List image → W → Out W (Option Err)
  | [], w => ⟨none, w, []⟩
  | img :: rest, w =>
    match mirrorImage E src dst img w with
    | ⟨some err, w1, t1⟩ => ⟨some err, w1, t1⟩
    | ⟨none, w1, t1⟩ =>
      match mirrorImages E src dst rest w1 with
      | ⟨r, w2, t2⟩ => ⟨r, w2, t1 ++ t2⟩

/-! ## Chart mirror (main.go 95-127) -/

/-- One hexadecimal digit in lower case, as `%x` prints it. -/
def hexDigit (n : Nat) : Char :=
  if n < 10 then Char.ofNat (48 + n) else Char.ofNat (87 + n)

/-- The string `fmt.Sprintf("%x", b)` of a byte slice: two lower-case digits per byte. -/
def fmtHex (b : List UInt8) : String :=
  String.mk (b.flatMap fun x => [hexDigit (x.toNat / 16), hexDigit (x.toNat % 16)])

/-- The address `mirrorChart` fetches (main.go 96). -/
def chartURL (src : String) (c : chart) : String :=
  src ++ "/" ++ c.Chart ++ "-" ++ c.Version ++ ".tgz"

/-- Go `mirrorChart` (main.go 95-118).  `http.StatusOK` is 200.  The push to `dst` is a TODO
in the source: no collaborator is called for it. -/
def mirrorChart {W : Type} (E : Env W) (src dst : String) (c : chart) (w : W) :
    Out W (Option Err) :=
  match E.httpGet (chartURL src c) w with
  | (Except.error err, w1) =>
    ⟨some err, w1,
      [Event.httpGet (chartURL src c) (Except.error err), Event.mirrorChart src dst c (some err)]⟩
  | (Except.ok status, w1) =>
    if status ≠ 200 then
      ⟨some (Err.chartNotFound c src), w1,
        [Event.httpGet (chartURL src c) (Except.ok status),
         Event.mirrorChart src dst c (some (Err.chartNotFound c src))]⟩
    else
      match E.copyBody w1 with
      | (Except.error err, w2) =>
        ⟨some err, w2,
          [Event.httpGet (chartURL src c) (Except.ok status), Event.copyBody (Except.error err),
           Event.mirrorChart src dst c (some err)]⟩
      | (Except.ok body, w2) =>
        if c.Digest ≠ fmtHex (E.sha256 body) then
          ⟨some (Err.digestMismatch c c.Digest (fmtHex (E.sha256 body))), w2,
            [Event.httpGet (chartURL src c) (Except.ok status), Event.copyBody (Except.ok body),
             Event.mirrorChart src dst c
               (some (Err.digestMismatch c c.Digest (fmtHex (E.sha256 body))))]⟩
        else
          ⟨none, w2,
            [Event.httpGet (chartURL src c) (Except.ok status), Event.copyBody (Except.ok body),
             Event.mirrorChart src dst c none]⟩

/-- Go `mirrorCharts` (main.go 120-127). -/
def mirrorCharts {W : Type} (E : Env W) (src dst : String) : List chart → W → Out W (Option Err)
  | [], w => ⟨none, w, []⟩
  | c :: rest, w =>
    match mirrorChart E src dst c w with
    | ⟨some err, w1, t1⟩ => ⟨some err, w1, t1⟩
    | ⟨none, w1, t1⟩ =>
      match mirrorCharts E src dst rest w1 with
      | ⟨r, w2, t2⟩ => ⟨r, w2, t1 ++ t2⟩

/-! ## Repository mirror (main.go 129-167) -/

/-- The refspec `mirrorYggdrasil` fetches (main.go 154). -/
def fetchRefSpec (y : yggdrasilRepository) : String :=
  y.Commit ++ ":FETCH_HEAD"

/-- Go `mirrorYggdrasil` (main.go 129-167).  The two `return nil` after `CreateRemote`
are lines 140 and 148 of the source. -/
def mirrorYggdrasil {W : Type} (E : Env W) (src dst : String) (y : yggdrasilRepository)
    (w : W) : Out W (Option Err) :=
  match E.gitInit w with
  | (some err, w1) =>
    ⟨some err, w1, [Event.gitInit (some err), Event.mirrorYggdrasil src dst y (some err)]⟩
  | (none, w1) =>
    match E.createRemote "src" src w1 with
    | (some err, w2) =>
      ⟨none, w2,
        [Event.gitInit none, Event.createRemote "src" src (some err),
         Event.mirrorYggdrasil src dst y none]⟩
    | (none, w2) =>
      match E.createRemote "dst" dst w2 with
      | (some err, w3) =>
        ⟨none, w3,
          [Event.gitInit none, Event.createRemote "src" src none,
           Event.createRemote "dst" dst (some err), Event.mirrorYggdrasil src dst y none]⟩
      | (none, w3) =>
        match E.gitFetch "src" (fetchRefSpec y) w3 with
        | (some err, w4) =>
          ⟨some err, w4,
            [Event.gitInit none, Event.createRemote "src" src none,
             Event.createRemote "dst" dst none, Event.gitFetch "src" (fetchRefSpec y) (some err),
             Event.mirrorYggdrasil src dst y (some err)]⟩
        | (none, w4) =>
          match E.gitPush "dst" "FETCH_HEAD:refs/heads/master" true w4 with
          | (err, w5) =>
            ⟨err, w5,
              [Event.gitInit none, Event.createRemote "src" src none,
               Event.createRemote "dst" dst none, Event.gitFetch "src" (fetchRefSpec y) none,
               Event.gitPush "dst" "FETCH_HEAD:refs/heads/master" true err,
               Event.mirrorYggdrasil src dst y err]⟩

/-! ## One pass (main.go 169-227) -/

/-- The signature check of `synchronize` (main.go 186-198).  `keyRing` is the Go
`*string`: `none` is the nil pointer. -/
def verifyHead {W : Type} (E : Env W) (keyRing : Option String) (hash : String) (w : W) :
    Out W (Option Err) :=
  match keyRing with
  | none => ⟨none, w, []⟩
  | some k =>
    match E.commitObject hash w with
    | (Except.error err, w1) => ⟨some err, w1, [Event.commitObject hash (Except.error err)]⟩
    | (Except.ok commit, w1) =>
      if commit.PGPSignature = "" then
        ⟨some (Err.commitNotSigned commit.ID), w1, [Event.commitObject hash (Except.ok commit)]⟩
      else
        match E.commitVerify commit k w1 with
        | (some err, w2) =>
          ⟨some err, w2,
            [Event.commitObject hash (Except.ok commit), Event.commitVerify commit k (some err)]⟩
        | (none, w2) =>
          ⟨none, w2,
            [Event.commitObject hash (Except.ok commit), Event.commitVerify commit k none]⟩

/-- The manifest read and decode of `synchronize` (main.go 200-213). -/
def readManifest {W : Type} (E : Env W) (w : W) : Out W (Except Err manifest) :=
  match E.fsOpen "manifest.json" w with
  | (some err, w1) => ⟨Except.error err, w1, [Event.fsOpen "manifest.json" (some err)]⟩
  | (none, w1) =>
    match E.readAll w1 with
    | (Except.error err, w2) =>
      ⟨Except.error err, w2,
        [Event.fsOpen "manifest.json" none, Event.readAll (Except.error err)]⟩
    | (Except.ok data, w2) =>
      match E.jsonUnmarshal data with
      | Except.error err =>
        ⟨Except.error err, w2,
          [Event.fsOpen "manifest.json" none, Event.readAll (Except.ok data),
           Event.jsonUnmarshal data (Except.error err)]⟩
      | Except.ok m =>
        ⟨Except.ok m, w2,
          [Event.fsOpen "manifest.json" none, Event.readAll (Except.ok data),
           Event.jsonUnmarshal data (Except.ok m)]⟩

/-- How the part of `synchronize` before the mirrors (main.go 170-213) ends:
`noChange` is the return of line 183, `failed err` one of the error returns of lines
179-212, `resolved hash m` the arrival at line 215 with the head hash and the decoded
manifest. -/
inductive Resolution where
  | noChange
  | failed (err : Err)
  | resolved (hash : String) (m : manifest)
deriving DecidableEq

/-- The part of `synchronize` before the mirrors (main.go 170-213).  The error of
`git.Clone` is assigned to `err` on line 172 and overwritten on line 177 by the result of
`r.Head()` without having been read. -/
def resolve {W : Type} (E : Env W) (cfg : Config) (lastSuccessfulSynchronization : String)
    (keyRing : Option String) (w : W) : Out W Resolution :=
  match E.gitClone cfg.manifestGitRepository 1 w with
  | (cloneErr, w1) =>
    match E.repoHead w1 with
    | (Except.error err, w2) =>
      ⟨Resolution.failed err, w2,
        [Event.gitClone cfg.manifestGitRepository 1 cloneErr, Event.repoHead (Except.error err)]⟩
    | (Except.ok hash, w2) =>
      if hash = lastSuccessfulSynchronization then
        ⟨Resolution.noChange, w2,
          [Event.gitClone cfg.manifestGitRepository 1 cloneErr, Event.repoHead (Except.ok hash)]⟩
      else
        match verifyHead E keyRing hash w2 with
        | ⟨some err, w3, t3⟩ =>
          ⟨Resolution.failed err, w3,
            [Event.gitClone cfg.manifestGitRepository 1 cloneErr,
             Event.repoHead (Except.ok hash)] ++ t3⟩
        | ⟨none, w3, t3⟩ =>
          match readManifest E w3 with
          | ⟨Except.error err, w4, t4⟩ =>
            ⟨Resolution.failed err, w4,
              [Event.gitClone cfg.manifestGitRepository 1 cloneErr,
               Event.repoHead (Except.ok hash)] ++ t3 ++ t4⟩
          | ⟨Except.ok m, w4, t4⟩ =>
            ⟨Resolution.resolved hash m, w4,
              [Event.gitClone cfg.manifestGitRepository 1 cloneErr,
               Event.repoHead (Except.ok hash)] ++ t3 ++ t4⟩

/-- Go `synchronize` (main.go 169-227): the returned string and error. -/
def synchronize {W : Type} (E : Env W) (cfg : Config) (lastSuccessfulSynchronization : String)
    (keyRing : Option String) (w : W) : Out W (String × Option Err) :=
  match resolve E cfg lastSuccessfulSynchronization keyRing w with
  | ⟨Resolution.noChange, w1, t1⟩ => ⟨(lastSuccessfulSynchronization, none), w1, t1⟩
  | ⟨Resolution.failed err, w1, t1⟩ => ⟨(lastSuccessfulSynchronization, some err), w1, t1⟩
  | ⟨Resolution.resolved hash m, w1, t1⟩ =>
    match mirrorImages E cfg.sourceRegistry cfg.destinationRegistry m.Images w1 with
    | ⟨some err, w2, t2⟩ => ⟨(lastSuccessfulSynchronization, some err), w2, t1 ++ t2⟩
    | ⟨none, w2, t2⟩ =>
      match mirrorCharts E cfg.sourceChartRepository cfg.destinationChartRepository
          m.Charts w2 with
      | ⟨some err, w3, t3⟩ => ⟨(lastSuccessfulSynchronization, some err), w3, t1 ++ t2 ++ t3⟩
      | ⟨none, w3, t3⟩ =>
        match mirrorYggdrasil E cfg.sourceYggdrasilGitRepository
            cfg.destinationYggdrasilGitRepository m.YggdrasilRepository w3 with
        | ⟨some err, w4, t4⟩ =>
          ⟨(lastSuccessfulSynchronization, some err), w4, t1 ++ t2 ++ t3 ++ t4⟩
        | ⟨none, w4, t4⟩ => ⟨(hash, none), w4, t1 ++ t2 ++ t3 ++ t4⟩

/-! ## The main loop (main.go 229-253) -/

/-- One iteration of the loop of `main` (main.go 246-251): the value of
`lastSuccessfulSynchronization` after it. -/
def tick {W : Type} (E : Env W) (cfg : Config) (keyRing : Option String)
    (lastSuccessfulSynchronization : String) (w : W) : Out W String :=
  match synchronize E cfg lastSuccessfulSynchronization keyRing w with
  | ⟨(_, some err), w1, t⟩ => ⟨lastSuccessfulSynchronization, w1, t ++ [Event.logError err]⟩
  | ⟨(hash, none), w1, t⟩ => ⟨hash, w1, t⟩

/-- The first `n` iterations of the loop of `main`, each with the checkpoint, the world
and the events it ends with. -/
def ticks {W : Type} (E : Env W) (cfg : Config) (keyRing : Option String) :
    Nat → String → W → List (Out W String)
  | 0, _, _ => []
  | n + 1, last, w =>
    tick E cfg keyRing last w :: ticks E cfg keyRing n (tick E cfg keyRing last w).val
      (tick E cfg keyRing last w).world

/-- The start of `main` (main.go 232-242): the key ring, or the error `log.Fatal` ends the
process with. -/
def loadKeyRing {W : Type} (E : Env W) (cfg : Config) (w : W) : Out W (Except Err (Option String)) :=
  if cfg.armoredKeyRing ≠ "" then
    match E.readFile cfg.armoredKeyRing w with
    | (Except.error err, w1) =>
      ⟨Except.error err, w1,
        [Event.readFile cfg.armoredKeyRing (Except.error err), Event.logFatal err]⟩
    | (Except.ok s, w1) =>
      ⟨Except.ok (some s), w1, [Event.readFile cfg.armoredKeyRing (Except.ok s)]⟩
  else ⟨Except.ok none, w, []⟩

/-- The Go conversion of an unsigned 64-bit value to `int64` (two's complement). -/
def toInt64 (n : Nat) : Int :=
  if n % 2 ^ 64 < 2 ^ 63 then (n % 2 ^ 64 : Nat) else ((n % 2 ^ 64 : Nat) : Int) - 2 ^ 64

/-- The duration `time.Second * time.Duration(syncInterval)` of main.go 245, in
nanoseconds: the 64-bit `uint` is converted to `int64` and the product wraps in `int64`. -/
def tickDuration (syncInterval : Nat) : Int :=
  toInt64 (1000000000 * (syncInterval % 2 ^ 64))

/-- Go `main` (main.go 229-253) cut after `n` iterations of its loop: the passes made.
`lastSuccessfulSynchronization` starts as the empty string.  `time.Tick(d)` returns a nil
channel when `d` is not positive, and the `for range` over it never runs its body: no pass
is made then.  When `log.Fatal` ends the process there is no pass either. -/
def main {W : Type} (E : Env W) (cfg : Config) (n : Nat) (w : W) : List (Out W String) :=
  match loadKeyRing E cfg w with
  | ⟨Except.error _, _, _⟩ => []
  | ⟨Except.ok keyRing, w1, _⟩ =>
    if tickDuration cfg.syncInterval ≤ 0 then [] else ticks E cfg keyRing n "" w1

/-! ## Reading a trace -/

/-- The part of a pass an event belongs to. -/
inductive Stage where
  | head
  | signature
  | manifest
  | images
  | charts
  | yggdrasil
  | process
deriving DecidableEq

/-- The part of a pass an event belongs to: clone and head resolution, signature check,
manifest read and decode, the three mirrors, and what `main` does itself. -/
def Event.stage : Event → Stage
  | Event.gitClone _ _ _ => Stage.head
  | Event.repoHead _ => Stage.head
  | Event.commitObject _ _ => Stage.signature
  | Event.commitVerify _ _ _ => Stage.signature
  | Event.fsOpen _ _ => Stage.manifest
  | Event.readAll _ => Stage.manifest
  | Event.jsonUnmarshal _ _ => Stage.manifest
  | Event.combinedOutput _ _ _ _ => Stage.images
  | Event.mirrorImage _ _ _ _ => Stage.images
  | Event.httpGet _ _ => Stage.charts
  | Event.copyBody _ => Stage.charts
  | Event.mirrorChart _ _ _ _ => Stage.charts
  | Event.gitInit _ => Stage.yggdrasil
  | Event.createRemote _ _ _ => Stage.yggdrasil
  | Event.gitFetch _ _ _ => Stage.yggdrasil
  | Event.gitPush _ _ _ _ => Stage.yggdrasil
  | Event.mirrorYggdrasil _ _ _ _ => Stage.yggdrasil
  | Event.logError _ => Stage.process
  | Event.readFile _ _ => Stage.process
  | Event.logFatal _ => Stage.process

/-- A mirror invocation: which entry was mirrored. -/
inductive MirrorCall where
  | image (img : image)
  | chart (c : chart)
  | yggdrasil (y : yggdrasilRepository)
deriving DecidableEq

/-- The mirror invocation an event records, with the error it returned. -/
def Event.invocation : Event → Option (MirrorCall × Option Err)
  | Event.mirrorImage _ _ img err => some (MirrorCall.image img, err)
  | Event.mirrorChart _ _ c err => some (MirrorCall.chart c, err)
  | Event.mirrorYggdrasil _ _ y err => some (MirrorCall.yggdrasil y, err)
  | _ => none

/-- The mirror invocations of a trace, in the order they were made. -/
def invocations (t : List Event) : List (MirrorCall × Option Err) :=
  t.filterMap Event.invocation

/-- The mirror invocations a manifest asks for: the images in manifest order, then the
charts in manifest order, then the repository once (main.go 215-225). -/
def plannedCalls (m : manifest) : List MirrorCall :=
  m.Images.map MirrorCall.image ++ m.Charts.map MirrorCall.chart ++
    [MirrorCall.yggdrasil m.YggdrasilRepository]

/-! ## Sample collaborators

Concrete collaborators over the one-point world, used to run the program on explicit
inputs. -/

/-- A manifest with one tagged image, one chart and the repository reference. -/
def sampleManifest : manifest :=
  { Charts := [⟨"web", "ab01", "1.0"⟩],
    Images := [⟨"sha256:AAA", "a", "r", "v1"⟩],
    YggdrasilRepository := ⟨"deadbeef", "git://src/y"⟩ }

/-- A configuration with distinct source and destination endpoints and no key ring file. -/
def sampleConfig : Config :=
  { syncInterval := 60, manifestGitRepository := "git://manifest", armoredKeyRing := "",
    sourceRegistry := "src.example", destinationRegistry := "dst.example",
    sourceChartRepository := "http://charts.src",
    destinationChartRepository := "http://charts.dst",
    sourceYggdrasilGitRepository := "git://src/y",
    destinationYggdrasilGitRepository := "git://dst/y" }

/-- Collaborators that all succeed: the head is `h1`, the commit is signed and verifies,
the manifest decodes to `sampleManifest`, every chart body hashes to the bytes `ab 01`. -/
def quietEnv : Env Unit :=
  { gitClone := fun _ _ w => (none, w)
    repoHead := fun w => (Except.ok "h1", w)
    commitObject := fun h w => (Except.ok ⟨h, "sig"⟩, w)
    commitVerify := fun _ _ w => (none, w)
    fsOpen := fun _ w => (none, w)
    readAll := fun w => (Except.ok [], w)
    jsonUnmarshal := fun _ => Except.ok sampleManifest
    combinedOutput := fun _ _ w => (("", none), w)
    httpGet := fun _ w => (Except.ok 200, w)
    copyBody := fun w => (Except.ok [], w)
    sha256 := fun _ => [0xab, 0x01]
    gitInit := fun w => (none, w)
    createRemote := fun _ _ w => (none, w)
    gitFetch := fun _ _ w => (none, w)
    gitPush := fun _ _ _ w => (none, w)
    readFile := fun _ w => (Except.ok "", w) }

/-- A manifest with two tagged images, no chart and the repository reference. -/
def twoImageManifest : manifest :=
  { Charts := [],
    Images := [⟨"sha256:AAA", "a", "r", "v1"⟩, ⟨"sha256:BBB", "b", "r", "v2"⟩],
    YggdrasilRepository := ⟨"deadbeef", "git://src/y"⟩ }

/-- As `quietEnv`, but the manifest is `twoImageManifest` and the copy tool fails on the
image `b`. -/
def secondCopyFailsEnv : Env Unit :=
  { quietEnv with
    jsonUnmarshal := fun _ => Except.ok twoImageManifest
    combinedOutput := fun _ args w =>
      if "docker://dst.example/r/b:v2" ∈ args then
        (("denied", some (Err.external "exit status 1")), w)
      else (("", none), w) }

/-- As `quietEnv`, but the copy tool fails on every image. -/
def copyFailsEnv : Env Unit :=
  { quietEnv with
    combinedOutput := fun _ _ w => (("denied", some (Err.external "exit status 1")), w) }

/-- As `quietEnv`, but the chart repository answers every fetch with status 404. -/
def chartMissingEnv : Env Unit :=
  { quietEnv with httpGet := fun _ w => (Except.ok 404, w) }

/-- As `quietEnv`, but the head commit carries no signature. -/
def unsignedEnv : Env Unit :=
  { quietEnv with commitObject := fun h w => (Except.ok ⟨h, ""⟩, w) }

/-- As `quietEnv`, but creating the remote `dst` fails. -/
def remoteFailsEnv : Env Unit :=
  { quietEnv with
    createRemote := fun name _ w =>
      if name = "dst" then (some (Err.external "remote already exists"), w) else (none, w) }

/-- As `quietEnv`, but creating the remote `src` fails. -/
def srcRemoteFailsEnv : Env Unit :=
  { quietEnv with
    createRemote := fun name _ w =>
      if name = "src" then (some (Err.external "remote already exists"), w) else (none, w) }

/-- As `quietEnv`, but the fetch of the repository mirror fails. -/
def fetchFailsEnv : Env Unit :=
  { quietEnv with gitFetch := fun _ _ w => (some (Err.external "reference not found"), w) }

/-- As `quietEnv`, but the push of the repository mirror fails. -/
def pushFailsEnv : Env Unit :=
  { quietEnv with gitPush := fun _ _ _ w => (some (Err.external "authentication required"), w) }

/-- As `quietEnv`, but the clone of the manifest repository reports an error (while the
head of the repository object can still be resolved). -/
def cloneFailsEnv : Env Unit :=
  { quietEnv with gitClone := fun _ _ w => (some (Err.external "worktree checkout failed"), w) }

/-- The image stage of the pass that decoded the manifest `m` (main.go 215). -/
def passImages {W : Type} (E : Env W) (cfg : Config) (c : String) (keyRing : Option String)
    (w : W) (m : manifest) : Out W (Option Err) :=
  mirrorImages E cfg.sourceRegistry cfg.destinationRegistry m.Images
    (resolve E cfg c keyRing w).world

/-- The chart stage of the pass that decoded the manifest `m` (main.go 219). -/
def passCharts {W : Type} (E : Env W) (cfg : Config) (c : String) (keyRing : Option String)
    (w : W) (m : manifest) : Out W (Option Err) :=
  mirrorCharts E cfg.sourceChartRepository cfg.destinationChartRepository m.Charts
    (passImages E cfg c keyRing w m).world

/-- The repository stage of the pass that decoded the manifest `m` (main.go 223). -/
def passYggdrasil {W : Type} (E : Env W) (cfg : Config) (c : String)
    (keyRing : Option String) (w : W) (m : manifest) : Out W (Option Err) :=
  mirrorYggdrasil E cfg.sourceYggdrasilGitRepository cfg.destinationYggdrasilGitRepository
    m.YggdrasilRepository (passCharts E cfg c keyRing w m).world

/-- An answer of the chart repository with a status other than 200. -/
def Event.isChartMiss : Event → Bool
  | Event.httpGet _ (Except.ok status) => status != 200
  | _ => false

/-- A fetch or a push of the repository mirror. -/
def Event.isTransfer : Event → Bool
  | Event.gitFetch _ _ _ => true
  | Event.gitPush _ _ _ _ => true
  | _ => false

/-- The invocations `calls`, made for the entries `planned` and ending with the error
`result`, stop at the first failure: either every planned entry was invoked and returned
no error, or entry `i` returned the error `result`, the entries before it returned no
error, and no entry after it was invoked. -/
def StopsAtFirstFailure (planned : List MirrorCall) (calls : List (MirrorCall × Option Err))
    (result : Option Err) : Prop :=
  (result = none ∧ calls = planned.map fun c => (c, none)) ∨
  ∃ i e, ∃ h : i < planned.length, result = some e ∧
    calls = ((planned.take i).map fun c => (c, none)) ++ [(planned.get ⟨i, h⟩, some e)]

/-- The loop shared by `mirrorImages` and `mirrorCharts`: run `f` on each entry in order
and return at the first error. -/
def forEach {W α : Type} (f : α → W → Out W (Option Err)) : List α → W → Out W (Option Err)
  | [], w => ⟨none, w, []⟩
  | a :: rest, w =>
    match f a w with
    | ⟨some err, w1, t1⟩ => ⟨some err, w1, t1⟩
    | ⟨none, w1, t1⟩ =>
      match forEach f rest w1 with
      | ⟨r, w2, t2⟩ => ⟨r, w2, t1 ++ t2⟩

/-! ## What each piece leaves in the trace -/

theorem mirrorImages_eq_forEach {W : Type} (E : Env W) (src dst : String) (imgs : List image) :
    ∀ w : W, mirrorImages E src dst imgs w = forEach (mirrorImage E src dst) imgs w := by
  induction imgs with
  | nil => intro w; rfl
  | cons img rest ih => intro w; simp only [mirrorImages, forEach, ih]

theorem mirrorCharts_eq_forEach {W : Type} (E : Env W) (src dst : String) (cs : List chart) :
    ∀ w : W, mirrorCharts E src dst cs w = forEach (mirrorChart E src dst) cs w := by
  induction cs with
  | nil => intro w; rfl
  | cons c rest ih => intro w; simp only [mirrorCharts, forEach, ih]

theorem forEach_cons {W α : Type} (f : α → W → Out W (Option Err)) (a : α) (rest : List α)
    (w : W) :
    forEach f (a :: rest) w =
      match (f a w).val with
      | some err => ⟨some err, (f a w).world, (f a w).trace⟩
      | none =>
        ⟨(forEach f rest (f a w).world).val, (forEach f rest (f a w).world).world,
          (f a w).trace ++ (forEach f rest (f a w).world).trace⟩ := by
  rw [forEach]
  rcases h : f a w with ⟨_ | err, w1, t1⟩ <;> simp

theorem forEach_trace {W α : Type} (f : α → W → Out W (Option Err)) (P : Event → Prop)
    (hf : ∀ a w, ∀ ev ∈ (f a w).trace, P ev) (l : List α) :
    ∀ (w : W), ∀ ev ∈ (forEach f l w).trace, P ev := by
  induction l with
  | nil => intro w ev h; simp [forEach] at h
  | cons a rest ih =>
    intro w ev h
    rw [forEach_cons] at h
    cases hv : (f a w).val with
    | some err => rw [hv] at h; exact hf a w ev h
    | none =>
      rw [hv] at h
      rcases List.mem_append.mp h with h | h
      · exact hf a w ev h
      · exact ih _ ev h

theorem forEach_failing_event {W α : Type} (f : α → W → Out W (Option Err))
    (Q : Event → Prop) (R : α → Err → Prop)
    (hf : ∀ a w, (∃ ev ∈ (f a w).trace, Q ev) → ∃ e, (f a w).val = some e ∧ R a e)
    (l : List α) :
    ∀ (w : W), (∃ ev ∈ (forEach f l w).trace, Q ev) →
      ∃ a ∈ l, ∃ e, (forEach f l w).val = some e ∧ R a e := by
  induction l with
  | nil => intro w h; simp [forEach] at h
  | cons a rest ih =>
    intro w h
    rw [forEach_cons] at h ⊢
    cases hv : (f a w).val with
    | some err =>
      rw [hv] at h
      obtain ⟨e, he, hr⟩ := hf a w h
      rw [hv] at he
      exact ⟨a, List.mem_cons_self _ _, e, by simpa using he, hr⟩
    | none =>
      rw [hv] at h
      obtain ⟨ev, hev, hq⟩ := h
      rcases List.mem_append.mp hev with h1 | h1
      · obtain ⟨e, he, -⟩ := hf a w ⟨ev, h1, hq⟩
        rw [hv] at he
        cases he
      · obtain ⟨b, hb, e, he, hr⟩ := ih _ ⟨ev, h1, hq⟩
        exact ⟨b, List.mem_cons_of_mem _ hb, e, he, hr⟩

theorem stopsAtFirstFailure_nil : StopsAtFirstFailure [] [] none :=
  Or.inl ⟨rfl, rfl⟩

theorem stopsAtFirstFailure_cons_none {a : MirrorCall} {planned : List MirrorCall}
    {calls : List (MirrorCall × Option Err)} {r : Option Err}
    (h : StopsAtFirstFailure planned calls r) :
    StopsAtFirstFailure (a :: planned) ((a, none) :: calls) r := by
  rcases h with ⟨h1, h2⟩ | ⟨i, e, hi, h1, h2⟩
  · exact Or.inl ⟨h1, by simp [h2]⟩
  · exact Or.inr ⟨i + 1, e, by simpa using hi, h1, by simp [h2]⟩

theorem stopsAtFirstFailure_cons_some (a : MirrorCall) (planned : List MirrorCall) (e : Err) :
    StopsAtFirstFailure (a :: planned) [(a, some e)] (some e) :=
  Or.inr ⟨0, e, by simp, rfl, by simp⟩

theorem stopsAtFirstFailure_append {p1 p2 : List MirrorCall}
    {c1 c2 : List (MirrorCall × Option Err)} {r : Option Err}
    (h1 : StopsAtFirstFailure p1 c1 none) (h2 : StopsAtFirstFailure p2 c2 r) :
    StopsAtFirstFailure (p1 ++ p2) (c1 ++ c2) r := by
  rcases h1 with ⟨-, h1⟩ | ⟨i, e, hi, h1, -⟩
  · subst h1
    induction p1 with
    | nil => simpa using h2
    | cons a rest ih => exact stopsAtFirstFailure_cons_none ih
  · cases h1

theorem stopsAtFirstFailure_append_failed {p1 : List MirrorCall}
    {c1 : List (MirrorCall × Option Err)} {e : Err} (p2 : List MirrorCall)
    (h1 : StopsAtFirstFailure p1 c1 (some e)) :
    StopsAtFirstFailure (p1 ++ p2) c1 (some e) := by
  rcases h1 with ⟨h1, -⟩ | ⟨i, e1, hi, h1, h2⟩
  · cases h1
  · refine Or.inr ⟨i, e1, by simp; omega, h1, ?_⟩
    rw [h2, List.take_append_of_le_length (Nat.le_of_lt hi)]
    simp [List.getElem_append_left, hi]

theorem invocations_append (t1 t2 : List Event) :
    invocations (t1 ++ t2) = invocations t1 ++ invocations t2 := by
  simp [invocations]

theorem forEach_invocations {W α : Type} (f : α → W → Out W (Option Err))
    (call : α → MirrorCall)
    (hf : ∀ a w, invocations (f a w).trace = [(call a, (f a w).val)]) (l : List α) :
    ∀ (w : W), StopsAtFirstFailure (l.map call) (invocations (forEach f l w).trace)
      (forEach f l w).val := by
  induction l with
  | nil => intro w; simpa [forEach, invocations] using stopsAtFirstFailure_nil
  | cons a rest ih =>
    intro w
    rw [forEach_cons]
    cases hv : (f a w).val with
    | some err =>
      have := hf a w
      rw [hv] at this
      simp only [this, List.map_cons]
      exact stopsAtFirstFailure_cons_some _ _ _
    | none =>
      have := hf a w
      rw [hv] at this
      simp only [invocations_append, this, List.map_cons]
      exact stopsAtFirstFailure_cons_none (ih _)


theorem mirrorImage_cases {W : Type} (E : Env W) (src dst : String) (img : image) (w : W) :
    ∃ out err,
      (mirrorImage E src dst img w).val = Option.map (Err.mirrorImageFailure img out) err ∧
      (mirrorImage E src dst img w).world = (E.combinedOutput "skopeo" (skopeoArgs src dst img) w).2 ∧
      (mirrorImage E src dst img w).trace =
        [Event.combinedOutput "skopeo" (skopeoArgs src dst img) out err,
         Event.mirrorImage src dst img (mirrorImage E src dst img w).val] := by
  rcases h : E.combinedOutput "skopeo" (skopeoArgs src dst img) w with ⟨⟨out, _ | err⟩, w1⟩
  · exact ⟨out, none, by simp [mirrorImage, h]⟩
  · exact ⟨out, some err, by simp [mirrorImage, h]⟩

theorem mirrorImage_stage {W : Type} (E : Env W) (src dst : String) (img : image) (w : W) :
    ∀ ev ∈ (mirrorImage E src dst img w).trace, ev.stage = Stage.images := by
  obtain ⟨out, err, -, -, ht⟩ := mirrorImage_cases E src dst img w
  rw [ht]
  simp [Event.stage]

theorem mirrorImage_invocations {W : Type} (E : Env W) (src dst : String) (img : image) (w : W) :
    invocations (mirrorImage E src dst img w).trace =
      [(MirrorCall.image img, (mirrorImage E src dst img w).val)] := by
  obtain ⟨out, err, -, -, ht⟩ := mirrorImage_cases E src dst img w
  rw [ht]
  simp [invocations, Event.invocation]

theorem mirrorImages_stage {W : Type} (E : Env W) (src dst : String) (imgs : List image)
    (w : W) : ∀ ev ∈ (mirrorImages E src dst imgs w).trace, ev.stage = Stage.images := by
  rw [mirrorImages_eq_forEach]
  exact forEach_trace _ _ (mirrorImage_stage E src dst) imgs w

theorem mirrorImages_invocations {W : Type} (E : Env W) (src dst : String)
    (imgs : List image) (w : W) :
    StopsAtFirstFailure (imgs.map MirrorCall.image)
      (invocations (mirrorImages E src dst imgs w).trace) (mirrorImages E src dst imgs w).val := by
  rw [mirrorImages_eq_forEach]
  exact forEach_invocations _ _ (mirrorImage_invocations E src dst) imgs w

theorem mirrorChart_stage {W : Type} (E : Env W) (src dst : String) (c : chart) (w : W) :
    ∀ ev ∈ (mirrorChart E src dst c w).trace, ev.stage = Stage.charts := by
  unfold mirrorChart
  repeat' split
  all_goals simp [Event.stage]

theorem mirrorChart_invocations {W : Type} (E : Env W) (src dst : String) (c : chart) (w : W) :
    invocations (mirrorChart E src dst c w).trace =
      [(MirrorCall.chart c, (mirrorChart E src dst c w).val)] := by
  unfold mirrorChart
  repeat' split
  all_goals simp [invocations, Event.invocation]

theorem mirrorChart_miss {W : Type} (E : Env W) (src dst : String) (c : chart) (w : W)
    (h : ∃ ev ∈ (mirrorChart E src dst c w).trace, ev.isChartMiss) :
    ∃ e, (mirrorChart E src dst c w).val = some e ∧ e = Err.chartNotFound c src := by
  revert h
  unfold mirrorChart
  repeat' split
  all_goals simp_all [Event.isChartMiss]

theorem mirrorCharts_stage {W : Type} (E : Env W) (src dst : String) (cs : List chart)
    (w : W) : ∀ ev ∈ (mirrorCharts E src dst cs w).trace, ev.stage = Stage.charts := by
  rw [mirrorCharts_eq_forEach]
  exact forEach_trace _ _ (mirrorChart_stage E src dst) cs w

theorem mirrorCharts_invocations {W : Type} (E : Env W) (src dst : String)
    (cs : List chart) (w : W) :
    StopsAtFirstFailure (cs.map MirrorCall.chart)
      (invocations (mirrorCharts E src dst cs w).trace) (mirrorCharts E src dst cs w).val := by
  rw [mirrorCharts_eq_forEach]
  exact forEach_invocations _ _ (mirrorChart_invocations E src dst) cs w

theorem mirrorCharts_miss {W : Type} (E : Env W) (src dst : String) (cs : List chart) (w : W)
    (h : ∃ ev ∈ (mirrorCharts E src dst cs w).trace, ev.isChartMiss) :
    ∃ c ∈ cs, (mirrorCharts E src dst cs w).val = some (Err.chartNotFound c src) := by
  rw [mirrorCharts_eq_forEach] at h ⊢
  obtain ⟨c, hc, e, he, hr⟩ := forEach_failing_event (mirrorChart E src dst)
    (fun ev => ev.isChartMiss = true) (fun c e => e = Err.chartNotFound c src) (mirrorChart_miss E src dst) cs w h
  exact ⟨c, hc, by rw [he, hr]⟩

theorem mirrorYggdrasil_stage {W : Type} (E : Env W) (src dst : String)
    (y : yggdrasilRepository) (w : W) :
    ∀ ev ∈ (mirrorYggdrasil E src dst y w).trace, ev.stage = Stage.yggdrasil := by
  unfold mirrorYggdrasil
  repeat' split
  all_goals simp [Event.stage]

theorem mirrorYggdrasil_invocations {W : Type} (E : Env W) (src dst : String)
    (y : yggdrasilRepository) (w : W) :
    invocations (mirrorYggdrasil E src dst y w).trace =
      [(MirrorCall.yggdrasil y, (mirrorYggdrasil E src dst y w).val)] := by
  unfold mirrorYggdrasil
  repeat' split
  all_goals simp [invocations, Event.invocation]

theorem verifyHead_stage {W : Type} (E : Env W) (keyRing : Option String) (hash : String)
    (w : W) : ∀ ev ∈ (verifyHead E keyRing hash w).trace, ev.stage = Stage.signature := by
  unfold verifyHead
  repeat' split
  all_goals simp [Event.stage]

theorem readManifest_stage {W : Type} (E : Env W) (w : W) :
    ∀ ev ∈ (readManifest E w).trace, ev.stage = Stage.manifest := by
  unfold readManifest
  repeat' split
  all_goals simp [Event.stage]

theorem resolve_trace {W : Type} (E : Env W) (cfg : Config) (c : String)
    (keyRing : Option String) (w : W) :
    ∃ t, (resolve E cfg c keyRing w).trace =
        [Event.gitClone cfg.manifestGitRepository 1 (E.gitClone cfg.manifestGitRepository 1 w).1,
         Event.repoHead (E.repoHead (E.gitClone cfg.manifestGitRepository 1 w).2).1] ++ t ∧
      ∀ ev ∈ t, ev.stage = Stage.signature ∨ ev.stage = Stage.manifest := by
  unfold resolve
  rcases h1 : E.gitClone cfg.manifestGitRepository 1 w with ⟨ce, w1⟩
  rcases h2 : E.repoHead w1 with ⟨err | hash, w2⟩
  · exact ⟨[], by simp [h2], by simp⟩
  · by_cases hc : hash = c
    · exact ⟨[], by simp [h2, hc], by simp⟩
    · have hs := verifyHead_stage E keyRing hash w2
      rcases h3 : verifyHead E keyRing hash w2 with ⟨_ | err, w3, t3⟩
      · have hm := readManifest_stage E w3
        rw [h3] at hs
        rcases h4 : readManifest E w3 with ⟨err | m, w4, t4⟩
        all_goals
          rw [h4] at hm
          refine ⟨t3 ++ t4, by simp [h2, h3, h4, hc], ?_⟩
          intro ev hev
          rcases List.mem_append.mp hev with h | h
          · exact Or.inl (hs ev h)
          · exact Or.inr (hm ev h)
      · rw [h3] at hs
        exact ⟨t3, by simp [h2, h3, hc], fun ev hev => Or.inl (hs ev hev)⟩

theorem resolve_unchanged {W : Type} (E : Env W) (cfg : Config) (c : String)
    (keyRing : Option String) (w w2 : W)
    (hhead : E.repoHead (E.gitClone cfg.manifestGitRepository 1 w).2 = (Except.ok c, w2)) :
    resolve E cfg c keyRing w =
      ⟨Resolution.noChange, w2,
        [Event.gitClone cfg.manifestGitRepository 1 (E.gitClone cfg.manifestGitRepository 1 w).1,
         Event.repoHead (Except.ok c)]⟩ := by
  unfold resolve
  rcases h1 : E.gitClone cfg.manifestGitRepository 1 w with ⟨ce, w1⟩
  rw [h1] at hhead
  simp [hhead]

theorem resolve_resolved_ne {W : Type} (E : Env W) (cfg : Config) (c : String)
    (keyRing : Option String) (w : W) (h : String) (m : manifest)
    (hr : (resolve E cfg c keyRing w).val = Resolution.resolved h m) : h ≠ c := by
  revert hr
  unfold resolve
  repeat' split
  all_goals first
    | (intro hr; simp at hr; done)
    | (intro hr; simp at hr; obtain ⟨rfl, -⟩ := hr; assumption)

theorem invocations_eq_nil_of_stage (t : List Event)
    (h : ∀ ev ∈ t, ev.stage = Stage.head ∨ ev.stage = Stage.signature ∨
      ev.stage = Stage.manifest) : invocations t = [] := by
  unfold invocations
  rw [List.filterMap_eq_nil_iff]
  intro ev hev
  have := h ev hev
  cases ev <;> simp_all [Event.stage, Event.invocation]

theorem resolve_stage {W : Type} (E : Env W) (cfg : Config) (c : String)
    (keyRing : Option String) (w : W) :
    ∀ ev ∈ (resolve E cfg c keyRing w).trace,
      ev.stage = Stage.head ∨ ev.stage = Stage.signature ∨ ev.stage = Stage.manifest := by
  obtain ⟨t, ht, hs⟩ := resolve_trace E cfg c keyRing w
  rw [ht]
  intro ev hev
  simp only [List.cons_append, List.nil_append, List.mem_cons] at hev
  rcases hev with h | h | h
  · subst h; exact Or.inl rfl
  · subst h; exact Or.inl rfl
  · exact Or.inr (hs ev h)

/-- The result of `synchronize` in terms of the results of its stages. -/
theorem synchronize_eq {W : Type} (E : Env W) (cfg : Config) (c : String)
    (keyRing : Option String) (w : W) :
    synchronize E cfg c keyRing w =
      match (resolve E cfg c keyRing w).val with
      | Resolution.noChange =>
        ⟨(c, none), (resolve E cfg c keyRing w).world, (resolve E cfg c keyRing w).trace⟩
      | Resolution.failed err =>
        ⟨(c, some err), (resolve E cfg c keyRing w).world, (resolve E cfg c keyRing w).trace⟩
      | Resolution.resolved hash m =>
        match (passImages E cfg c keyRing w m).val with
        | some err =>
          ⟨(c, some err), (passImages E cfg c keyRing w m).world,
            (resolve E cfg c keyRing w).trace ++ (passImages E cfg c keyRing w m).trace⟩
        | none =>
          match (passCharts E cfg c keyRing w m).val with
          | some err =>
            ⟨(c, some err), (passCharts E cfg c keyRing w m).world,
              (resolve E cfg c keyRing w).trace ++ (passImages E cfg c keyRing w m).trace ++
                (passCharts E cfg c keyRing w m).trace⟩
          | none =>
            match (passYggdrasil E cfg c keyRing w m).val with
            | some err =>
              ⟨(c, some err), (passYggdrasil E cfg c keyRing w m).world,
                (resolve E cfg c keyRing w).trace ++ (passImages E cfg c keyRing w m).trace ++
                  (passCharts E cfg c keyRing w m).trace ++
                  (passYggdrasil E cfg c keyRing w m).trace⟩
            | none =>
              ⟨(hash, none), (passYggdrasil E cfg c keyRing w m).world,
                (resolve E cfg c keyRing w).trace ++ (passImages E cfg c keyRing w m).trace ++
                  (passCharts E cfg c keyRing w m).trace ++
                  (passYggdrasil E cfg c keyRing w m).trace⟩ := by
  unfold synchronize passYggdrasil passCharts passImages
  rcases h1 : resolve E cfg c keyRing w with ⟨_ | err | ⟨hash, m⟩, w1, t1⟩
  · rfl
  · rfl
  · simp only
    rcases h2 : mirrorImages E cfg.sourceRegistry cfg.destinationRegistry m.Images w1 with
      ⟨_ | err, w2, t2⟩
    · simp only
      rcases h3 : mirrorCharts E cfg.sourceChartRepository cfg.destinationChartRepository
        m.Charts w2 with ⟨_ | err, w3, t3⟩
      · simp only
        rcases h4 : mirrorYggdrasil E cfg.sourceYggdrasilGitRepository
          cfg.destinationYggdrasilGitRepository m.YggdrasilRepository w3 with ⟨_ | err, w4, t4⟩
        · rfl
        · rfl
      · rfl
    · rfl

theorem passImages_stage {W : Type} (E : Env W) (cfg : Config) (c : String)
    (keyRing : Option String) (w : W) (m : manifest) :
    ∀ ev ∈ (passImages E cfg c keyRing w m).trace, ev.stage = Stage.images :=
  mirrorImages_stage E _ _ _ _

theorem passCharts_stage {W : Type} (E : Env W) (cfg : Config) (c : String)
    (keyRing : Option String) (w : W) (m : manifest) :
    ∀ ev ∈ (passCharts E cfg c keyRing w m).trace, ev.stage = Stage.charts :=
  mirrorCharts_stage E _ _ _ _

theorem passYggdrasil_stage {W : Type} (E : Env W) (cfg : Config) (c : String)
    (keyRing : Option String) (w : W) (m : manifest) :
    ∀ ev ∈ (passYggdrasil E cfg c keyRing w m).trace, ev.stage = Stage.yggdrasil :=
  mirrorYggdrasil_stage E _ _ _ _

/-- Where an event of a pass comes from. -/
theorem synchronize_trace_mem {W : Type} (E : Env W) (cfg : Config) (c : String)
    (keyRing : Option String) (w : W) (ev : Event)
    (hev : ev ∈ (synchronize E cfg c keyRing w).trace) :
    ev ∈ (resolve E cfg c keyRing w).trace ∨
    ∃ h m, (resolve E cfg c keyRing w).val = Resolution.resolved h m ∧
      (ev ∈ (passImages E cfg c keyRing w m).trace ∨
       ((passImages E cfg c keyRing w m).val = none ∧
        (ev ∈ (passCharts E cfg c keyRing w m).trace ∨
         ((passCharts E cfg c keyRing w m).val = none ∧
          ev ∈ (passYggdrasil E cfg c keyRing w m).trace)))) := by
  rw [synchronize_eq] at hev
  cases hr : (resolve E cfg c keyRing w).val with
  | noChange => rw [hr] at hev; exact Or.inl hev
  | failed err => rw [hr] at hev; exact Or.inl hev
  | resolved hash m =>
    rw [hr] at hev
    simp only at hev
    cases h2 : (passImages E cfg c keyRing w m).val with
    | some e =>
      rw [h2] at hev
      simp only [List.mem_append] at hev
      rcases hev with h | h
      · exact Or.inl h
      · exact Or.inr ⟨hash, m, rfl, Or.inl h⟩
    | none =>
      rw [h2] at hev
      simp only at hev
      cases h3 : (passCharts E cfg c keyRing w m).val with
      | some e =>
        rw [h3] at hev
        simp only [List.mem_append] at hev
        rcases hev with (h | h) | h
        · exact Or.inl h
        · exact Or.inr ⟨hash, m, rfl, Or.inl h⟩
        · exact Or.inr ⟨hash, m, rfl, Or.inr ⟨h2, Or.inl h⟩⟩
      | none =>
        rw [h3] at hev
        simp only at hev
        have hmem : ev ∈ (resolve E cfg c keyRing w).trace ++
            (passImages E cfg c keyRing w m).trace ++ (passCharts E cfg c keyRing w m).trace ++
            (passYggdrasil E cfg c keyRing w m).trace := by
          cases h4 : (passYggdrasil E cfg c keyRing w m).val with
          | some e => rw [h4] at hev; exact hev
          | none => rw [h4] at hev; exact hev
        simp only [List.mem_append] at hmem
        rcases hmem with ((h | h) | h) | h
        · exact Or.inl h
        · exact Or.inr ⟨hash, m, rfl, Or.inl h⟩
        · exact Or.inr ⟨hash, m, rfl, Or.inr ⟨h2, Or.inl h⟩⟩
        · exact Or.inr ⟨hash, m, rfl, Or.inr ⟨h2, Or.inr ⟨h3, h⟩⟩⟩

theorem tick_eq {W : Type} (E : Env W) (cfg : Config) (keyRing : Option String) (c : String)
    (w : W) :
    tick E cfg keyRing c w =
      match (synchronize E cfg c keyRing w).val.2 with
      | some err =>
        ⟨c, (synchronize E cfg c keyRing w).world,
          (synchronize E cfg c keyRing w).trace ++ [Event.logError err]⟩
      | none =>
        ⟨(synchronize E cfg c keyRing w).val.1, (synchronize E cfg c keyRing w).world,
          (synchronize E cfg c keyRing w).trace⟩ := by
  unfold tick
  rcases h : synchronize E cfg c keyRing w with ⟨⟨hash, _ | err⟩, w1, t⟩ <;> rfl

theorem synchronize_error_val {W : Type} (E : Env W) (cfg : Config) (c : String)
    (keyRing : Option String) (w : W) (e : Err)
    (he : (synchronize E cfg c keyRing w).val.2 = some e) :
    (synchronize E cfg c keyRing w).val.1 = c := by
  revert he
  unfold synchronize
  repeat' split
  all_goals simp

theorem stopsAtFirstFailure_single (a : MirrorCall) (r : Option Err) :
    StopsAtFirstFailure [a] [(a, r)] r := by
  cases r with
  | none => exact Or.inl ⟨rfl, rfl⟩
  | some e => exact stopsAtFirstFailure_cons_some a [] e

theorem resolve_invocations {W : Type} (E : Env W) (cfg : Config) (c : String)
    (keyRing : Option String) (w : W) : invocations (resolve E cfg c keyRing w).trace = [] :=
  invocations_eq_nil_of_stage _ (resolve_stage E cfg c keyRing w)

theorem hexDigit_mem (n : Nat) (h : n < 16) : hexDigit n ∈ "0123456789abcdef".data := by
  revert n
  decide

theorem fmtHex_alphabet (b : List UInt8) :
    ∀ ch ∈ (fmtHex b).data, ch ∈ "0123456789abcdef".data := by
  intro ch hch
  simp only [fmtHex, List.mem_flatMap, List.mem_cons, List.mem_singleton,
    List.not_mem_nil, or_false] at hch
  obtain ⟨x, -, rfl | rfl⟩ := hch
  · exact hexDigit_mem _ (by have := x.toNat_lt; omega)
  · exact hexDigit_mem _ (Nat.mod_lt _ (by decide))

theorem fmtHex_length (b : List UInt8) : (fmtHex b).length = 2 * b.length := by
  induction b with
  | nil => rfl
  | cons x rest ih =>
    simp only [fmtHex, String.length, List.flatMap_cons, List.length_append, List.length_cons,
      List.length_nil] at ih ⊢
    omega

theorem append_ne_self (p s : String) (hp : p ≠ "") : p ++ s ≠ s := by
  intro h
  have hl := congrArg String.length h
  rw [String.length_append] at hl
  have : p.length = 0 := by omega
  have hd : p.data = [] := List.length_eq_zero.mp this
  exact hp (String.ext hd)

theorem resolve_stage_none {W : Type} (E : Env W) (cfg : Config) (c : String) (w : W) :
    ∀ ev ∈ (resolve E cfg c none w).trace, ev.stage = Stage.head ∨ ev.stage = Stage.manifest := by
  unfold resolve
  rcases h1 : E.gitClone cfg.manifestGitRepository 1 w with ⟨ce, w1⟩
  rcases h2 : E.repoHead w1 with ⟨err | hash, w2⟩
  · simp [h2, Event.stage]
  · by_cases hc : hash = c
    · simp [h2, hc, Event.stage]
    · have hm := readManifest_stage E w2
      rcases h4 : readManifest E w2 with ⟨err | m, w4, t4⟩
      all_goals
        rw [h4] at hm
        simp only [h2, hc, verifyHead, h4, if_false, List.append_nil, List.cons_append,
          List.nil_append, List.mem_cons]
        rintro ev (h | h | h)
        · subst h; exact Or.inl rfl
        · subst h; exact Or.inl rfl
        · exact Or.inr (hm ev h)

theorem isChartMiss_stage (ev : Event) (h : ev.isChartMiss = true) : ev.stage = Stage.charts := by
  cases ev <;> simp_all [Event.isChartMiss, Event.stage]

theorem isTransfer_stage (ev : Event) (h : ev.isTransfer = true) :
    ev.stage = Stage.yggdrasil := by
  cases ev <;> simp_all [Event.isTransfer, Event.stage]

theorem synchronize_trace_stage {W : Type} (E : Env W) (cfg : Config) (c : String)
    (keyRing : Option String) (w : W) (ev : Event)
    (hev : ev ∈ (synchronize E cfg c keyRing w).trace) :
    ev ∈ (resolve E cfg c keyRing w).trace ∨ ev.stage = Stage.images ∨
      ev.stage = Stage.charts ∨ ev.stage = Stage.yggdrasil := by
  rcases synchronize_trace_mem E cfg c keyRing w ev hev with
    hm | ⟨hh, m, -, hm | ⟨-, hm | ⟨-, hm⟩⟩⟩
  · exact Or.inl hm
  · exact Or.inr (Or.inl (passImages_stage E cfg c keyRing w m ev hm))
  · exact Or.inr (Or.inr (Or.inl (passCharts_stage E cfg c keyRing w m ev hm)))
  · exact Or.inr (Or.inr (Or.inr (passYggdrasil_stage E cfg c keyRing w m ev hm)))

/-- The head a pass observed is the one `r.Head()` answered after the clone. -/
theorem synchronize_head_event {W : Type} (E : Env W) (cfg : Config) (c : String)
    (keyRing : Option String) (w : W) (r : Except Err String)
    (hev : Event.repoHead r ∈ (synchronize E cfg c keyRing w).trace) :
    (E.repoHead (E.gitClone cfg.manifestGitRepository 1 w).2).1 = r := by
  rcases synchronize_trace_stage E cfg c keyRing w _ hev with h | h | h | h
  · obtain ⟨t, ht, hs⟩ := resolve_trace E cfg c keyRing w
    rw [ht] at h
    simp only [List.cons_append, List.nil_append, List.mem_cons, Event.repoHead.injEq] at h
    rcases h with h | h | h
    · cases h
    · exact h.symm
    · rcases hs _ h with h | h <;> simp [Event.stage] at h
  · simp [Event.stage] at h
  · simp [Event.stage] at h
  · simp [Event.stage] at h

theorem tick_trace_head {W : Type} (E : Env W) (cfg : Config) (c : String)
    (keyRing : Option String) (w : W) (r : Except Err String)
    (hev : Event.repoHead r ∈ (tick E cfg keyRing c w).trace) :
    (E.repoHead (E.gitClone cfg.manifestGitRepository 1 w).2).1 = r := by
  apply synchronize_head_event E cfg c keyRing w r
  rw [tick_eq] at hev
  cases he : (synchronize E cfg c keyRing w).val.2 with
  | none => rw [he] at hev; exact hev
  | some e =>
    rw [he] at hev
    simp only [List.mem_append, List.mem_singleton] at hev
    rcases hev with h | h
    · exact h
    · cases h

/-- The head hash in the outcome of the part before the mirrors is the one `r.Head()`
answered. -/
theorem resolve_head {W : Type} (E : Env W) (cfg : Config) (c : String)
    (keyRing : Option String) (w : W) :
    ((resolve E cfg c keyRing w).val = Resolution.noChange →
      (E.repoHead (E.gitClone cfg.manifestGitRepository 1 w).2).1 = Except.ok c) ∧
    ∀ hash m, (resolve E cfg c keyRing w).val = Resolution.resolved hash m →
      (E.repoHead (E.gitClone cfg.manifestGitRepository 1 w).2).1 = Except.ok hash := by
  unfold resolve
  rcases h1 : E.gitClone cfg.manifestGitRepository 1 w with ⟨ce, w1⟩
  rcases h2 : E.repoHead w1 with ⟨err | hash, w2⟩
  · simp [h2]
  · by_cases hc : hash = c
    · simp [h2, hc]
    · rcases h3 : verifyHead E keyRing hash w2 with ⟨_ | err, w3, t3⟩
      · rcases h4 : readManifest E w3 with ⟨err | m, w4, t4⟩
        · simp [h2, hc, h3, h4]
        · simp only [h2, hc, h3, h4, if_false]
          refine ⟨by simp, ?_⟩
          intro hash1 m1 heq
          simp only [Resolution.resolved.injEq] at heq
          rw [heq.1]
      · simp [h2, hc, h3]

/-- A pass that returns no error returns the head it observed. -/
theorem synchronize_ok_head {W : Type} (E : Env W) (cfg : Config) (c : String)
    (keyRing : Option String) (w : W)
    (hok : (synchronize E cfg c keyRing w).val.2 = none) :
    (E.repoHead (E.gitClone cfg.manifestGitRepository 1 w).2).1 =
      Except.ok (synchronize E cfg c keyRing w).val.1 := by
  have hh := resolve_head E cfg c keyRing w
  rw [synchronize_eq] at hok ⊢
  cases hr : (resolve E cfg c keyRing w).val with
  | noChange => exact hh.1 hr
  | failed err => rw [hr] at hok; simp at hok
  | resolved hash m =>
    rw [hr] at hok
    simp only at hok ⊢
    cases h2 : (passImages E cfg c keyRing w m).val with
    | some e => rw [h2] at hok; simp at hok
    | none =>
      cases h3 : (passCharts E cfg c keyRing w m).val with
      | some e => rw [h2, h3] at hok; simp at hok
      | none =>
        cases h4 : (passYggdrasil E cfg c keyRing w m).val with
        | some e => rw [h2, h3, h4] at hok; simp at hok
        | none => exact hh.2 hash m hr

theorem tick_unchanged {W : Type} (E : Env W) (cfg : Config) (keyRing : Option String)
    (h : String) (w : W)
    (hobs : Event.repoHead (Except.ok h) ∈ (tick E cfg keyRing h w).trace) :
    (tick E cfg keyRing h w).val = h ∧ invocations (tick E cfg keyRing h w).trace = [] ∧
      ∀ ev ∈ (tick E cfg keyRing h w).trace, ev.stage = Stage.head := by
  have hhead := tick_trace_head E cfg h keyRing w _ hobs
  have hsync : synchronize E cfg h keyRing w =
      ⟨(h, none), (E.repoHead (E.gitClone cfg.manifestGitRepository 1 w).2).2,
        [Event.gitClone cfg.manifestGitRepository 1 (E.gitClone cfg.manifestGitRepository 1 w).1,
         Event.repoHead (Except.ok h)]⟩ := by
    unfold synchronize
    rw [resolve_unchanged E cfg h keyRing w _ (Prod.ext hhead rfl)]
  rw [tick_eq, hsync]
  exact ⟨rfl, by simp [invocations, Event.invocation], by simp [Event.stage]⟩

theorem ticks_unchanged {W : Type} (E : Env W) (cfg : Config) (keyRing : Option String)
    (h : String) (n : Nat) :
    ∀ w : W, (∀ o ∈ ticks E cfg keyRing n h w, Event.repoHead (Except.ok h) ∈ o.trace) →
      ∀ o ∈ ticks E cfg keyRing n h w,
        o.val = h ∧ invocations o.trace = [] ∧ ∀ ev ∈ o.trace, ev.stage = Stage.head := by
  induction n with
  | zero => intro w _ o ho; simp [ticks] at ho
  | succ n ih =>
    intro w hobs o ho
    have h1 := tick_unchanged E cfg keyRing h w (hobs _ (by simp [ticks]))
    simp only [ticks, List.mem_cons] at ho hobs
    rcases ho with ho | ho
    · subst ho; exact h1
    · rw [h1.1] at ho hobs
      exact ih _ (fun o ho => hobs o (Or.inr ho)) o ho

/-! ## Properties of the specification -/

/-- C1: for every previous checkpoint `c` and every behaviour of the collaborators, one
pass of `synchronize` returns a head hash `h` different from `c` with no error if and only
if the part before the mirrors ended with the head `h` and a decoded manifest, and
`mirrorImages`, `mirrorCharts` and `mirrorYggdrasil` all returned no error; whenever
`synchronize` returns an error the string it returns is `c`, and the loop of `main` leaves
`lastSuccessfulSynchronization` at `c`. -/
theorem synchronize_checkpoint {W : Type} (E : Env W) (cfg : Config) (c : String)
    (keyRing : Option String) (w : W) :
    (∀ h : String, (h ≠ c ∧ (synchronize E cfg c keyRing w).val = (h, none)) ↔
      (h ≠ c ∧ ∃ m w1 t1 w2 t2 w3 t3 w4 t4,
        resolve E cfg c keyRing w = ⟨Resolution.resolved h m, w1, t1⟩ ∧
        mirrorImages E cfg.sourceRegistry cfg.destinationRegistry m.Images w1 =
          ⟨none, w2, t2⟩ ∧
        mirrorCharts E cfg.sourceChartRepository cfg.destinationChartRepository m.Charts w2 =
          ⟨none, w3, t3⟩ ∧
        mirrorYggdrasil E cfg.sourceYggdrasilGitRepository
          cfg.destinationYggdrasilGitRepository m.YggdrasilRepository w3 = ⟨none, w4, t4⟩)) ∧
    (∀ e, (synchronize E cfg c keyRing w).val.2 = some e →
      (synchronize E cfg c keyRing w).val.1 = c ∧ (tick E cfg keyRing c w).val = c) := by
  refine ⟨fun h => ⟨?_, ?_⟩, ?_⟩
  · rintro ⟨hne, hv⟩
    refine ⟨hne, ?_⟩
    unfold synchronize at hv
    split at hv
    · simp only [Prod.mk.injEq, and_true] at hv
      exact absurd hv.symm hne
    · simp at hv
    · split at hv
      · simp at hv
      · split at hv
        · simp at hv
        · split at hv
          · simp at hv
          · simp only [Prod.mk.injEq, and_true] at hv
            subst hv
            rename_i x1 hash m w1 t1 h1 x2 w2 t2 h2 x3 w3 t3 h3 x4 w4 t4 h4
            exact ⟨m, w1, t1, w2, t2, w3, t3, w4, t4, h1, h2, h3, h4⟩
  · rintro ⟨-, m, w1, t1, w2, t2, w3, t3, w4, t4, h1, h2, h3, h4⟩
    have hne : h ≠ c := resolve_resolved_ne E cfg c keyRing w h m (by rw [h1])
    exact ⟨hne, by simp [synchronize, h1, h2, h3, h4]⟩
  · intro e he
    refine ⟨synchronize_error_val E cfg c keyRing w e he, ?_⟩
    rw [tick_eq, he]

/-- C1 on the sample collaborators: from the empty checkpoint the pass over `quietEnv`
returns the head `h1`; over `copyFailsEnv` it returns the empty checkpoint with an error
and the loop keeps the empty checkpoint. -/
theorem synchronize_checkpoint_witness :
    (synchronize quietEnv sampleConfig "" none ()).val = ("h1", none) ∧
    (synchronize copyFailsEnv sampleConfig "" none ()).val.1 = "" ∧
    (tick copyFailsEnv sampleConfig none "" ()).val = "" :=
  ⟨(((synchronize_checkpoint quietEnv sampleConfig "" none ()).1 "h1").2
      ⟨by decide, _, _, _, _, _, _, _, _, _, rfl, rfl, rfl, rfl⟩).2,
    (synchronize_checkpoint copyFailsEnv sampleConfig "" none ()).2 _ rfl⟩

/-- C2: when the head commit hash of the manifest source equals the previous checkpoint
`c`, `synchronize` returns `c` with no error after the clone and the head resolution
alone: no signature check, no manifest read or decode and no mirror invocation, whatever
the key ring. -/
theorem synchronize_unchanged_head {W : Type} (E : Env W) (cfg : Config) (c : String)
    (keyRing : Option String) (w w2 : W)
    (hhead : E.repoHead (E.gitClone cfg.manifestGitRepository 1 w).2 = (Except.ok c, w2)) :
    synchronize E cfg c keyRing w =
      ⟨(c, none), w2,
        [Event.gitClone cfg.manifestGitRepository 1 (E.gitClone cfg.manifestGitRepository 1 w).1,
         Event.repoHead (Except.ok c)]⟩ ∧
    (∀ ev ∈ (synchronize E cfg c keyRing w).trace, ev.stage = Stage.head) ∧
    invocations (synchronize E cfg c keyRing w).trace = [] := by
  have h : synchronize E cfg c keyRing w =
      ⟨(c, none), w2,
        [Event.gitClone cfg.manifestGitRepository 1 (E.gitClone cfg.manifestGitRepository 1 w).1,
         Event.repoHead (Except.ok c)]⟩ := by
    unfold synchronize
    rw [resolve_unchanged E cfg c keyRing w w2 hhead]
  rw [h]
  exact ⟨rfl, by simp [Event.stage], by simp [invocations, Event.invocation]⟩

/-- C2 on the sample collaborators, with a key ring configured and the checkpoint `h1`. -/
theorem synchronize_unchanged_head_witness :
    (synchronize quietEnv sampleConfig "h1" (some "keyring") ()).val = ("h1", none) ∧
    invocations (synchronize quietEnv sampleConfig "h1" (some "keyring") ()).trace = [] :=
  ⟨congrArg Out.val
      (synchronize_unchanged_head quietEnv sampleConfig "h1" (some "keyring") () () rfl).1,
    (synchronize_unchanged_head quietEnv sampleConfig "h1" (some "keyring") () () rfl).2.2⟩

/-- C4: in a pass that decoded the manifest `m`, the mirror invocations made are the
planned ones (images in manifest order, then charts in manifest order, then the repository
once) up to and including the first that returns an error: either all were invoked and
returned no error, or entry `i` returned the error of the pass, the entries before it
returned no error and nothing after it was invoked. -/
theorem synchronize_invocations {W : Type} (E : Env W) (cfg : Config) (c : String)
    (keyRing : Option String) (w : W) (h : String) (m : manifest)
    (hres : (resolve E cfg c keyRing w).val = Resolution.resolved h m) :
    StopsAtFirstFailure (plannedCalls m) (invocations (synchronize E cfg c keyRing w).trace)
      (synchronize E cfg c keyRing w).val.2 := by
  have hI : StopsAtFirstFailure (m.Images.map MirrorCall.image)
      (invocations (passImages E cfg c keyRing w m).trace) (passImages E cfg c keyRing w m).val :=
    mirrorImages_invocations E _ _ _ _
  have hC : StopsAtFirstFailure (m.Charts.map MirrorCall.chart)
      (invocations (passCharts E cfg c keyRing w m).trace) (passCharts E cfg c keyRing w m).val :=
    mirrorCharts_invocations E _ _ _ _
  have hY : invocations (passYggdrasil E cfg c keyRing w m).trace =
      [(MirrorCall.yggdrasil m.YggdrasilRepository, (passYggdrasil E cfg c keyRing w m).val)] :=
    mirrorYggdrasil_invocations E _ _ _ _
  have hR := resolve_invocations E cfg c keyRing w
  rw [synchronize_eq, hres]
  simp only
  unfold plannedCalls
  cases h2 : (passImages E cfg c keyRing w m).val with
  | some e =>
    rw [h2] at hI
    simp only [invocations_append, hR, List.nil_append]
    exact stopsAtFirstFailure_append_failed _ (stopsAtFirstFailure_append_failed _ hI)
  | none =>
    rw [h2] at hI
    simp only
    cases h3 : (passCharts E cfg c keyRing w m).val with
    | some e =>
      rw [h3] at hC
      simp only [invocations_append, hR, List.nil_append]
      exact stopsAtFirstFailure_append_failed _ (stopsAtFirstFailure_append hI hC)
    | none =>
      rw [h3] at hC
      simp only
      have hY2 := stopsAtFirstFailure_single (MirrorCall.yggdrasil m.YggdrasilRepository)
        (passYggdrasil E cfg c keyRing w m).val
      rw [← hY] at hY2
      have hall := stopsAtFirstFailure_append (stopsAtFirstFailure_append hI hC) hY2
      cases h4 : (passYggdrasil E cfg c keyRing w m).val with
      | some e =>
        rw [h4] at hall
        simp only [invocations_append, hR, List.nil_append]
        exact hall
      | none =>
        rw [h4] at hall
        simp only [invocations_append, hR, List.nil_append]
        exact hall

/-- C4 on `secondCopyFailsEnv`: the image `a` is mirrored, the image `b` fails, and neither
the charts nor the repository are invoked. -/
theorem synchronize_invocations_witness :
    (resolve secondCopyFailsEnv sampleConfig "" none ()).val =
        Resolution.resolved "h1" twoImageManifest ∧
    StopsAtFirstFailure (plannedCalls twoImageManifest)
      (invocations (synchronize secondCopyFailsEnv sampleConfig "" none ()).trace)
      (synchronize secondCopyFailsEnv sampleConfig "" none ()).val.2 ∧
    (invocations (synchronize secondCopyFailsEnv sampleConfig "" none ()).trace).map Prod.fst =
      [MirrorCall.image ⟨"sha256:AAA", "a", "r", "v1"⟩,
       MirrorCall.image ⟨"sha256:BBB", "b", "r", "v2"⟩] :=
  ⟨rfl,
    synchronize_invocations secondCopyFailsEnv sampleConfig "" none () "h1" twoImageManifest rfl,
    by decide⟩

/-- C5: for a chart whose fetch answered 200 and whose body was read without error,
`mirrorChart` returns no error if and only if the declared digest is the lower-case
hexadecimal string of the SHA-256 of the body (two characters of `0-9a-f` per byte); any
other declared digest, such as that string behind a non-empty prefix, makes it return the
digest-mismatch error after the fetch and the read alone: nothing is pushed. -/
theorem mirrorChart_digest {W : Type} (E : Env W) (src dst : String) (c : chart)
    (w w1 w2 : W) (body : List UInt8)
    (hget : E.httpGet (chartURL src c) w = (Except.ok 200, w1))
    (hbody : E.copyBody w1 = (Except.ok body, w2)) :
    ((mirrorChart E src dst c w).val = none ↔ c.Digest = fmtHex (E.sha256 body)) ∧
    (c.Digest ≠ fmtHex (E.sha256 body) →
      mirrorChart E src dst c w =
        ⟨some (Err.digestMismatch c c.Digest (fmtHex (E.sha256 body))), w2,
          [Event.httpGet (chartURL src c) (Except.ok 200), Event.copyBody (Except.ok body),
           Event.mirrorChart src dst c
             (some (Err.digestMismatch c c.Digest (fmtHex (E.sha256 body))))]⟩) ∧
    (∀ p : String, p ≠ "" → c.Digest = p ++ fmtHex (E.sha256 body) →
      (mirrorChart E src dst c w).val =
        some (Err.digestMismatch c c.Digest (fmtHex (E.sha256 body)))) ∧
    (∀ ch ∈ (fmtHex (E.sha256 body)).data, ch ∈ "0123456789abcdef".data) ∧
    (fmtHex (E.sha256 body)).length = 2 * (E.sha256 body).length := by
  have hne : c.Digest ≠ fmtHex (E.sha256 body) →
      mirrorChart E src dst c w =
        ⟨some (Err.digestMismatch c c.Digest (fmtHex (E.sha256 body))), w2,
          [Event.httpGet (chartURL src c) (Except.ok 200), Event.copyBody (Except.ok body),
           Event.mirrorChart src dst c
             (some (Err.digestMismatch c c.Digest (fmtHex (E.sha256 body))))]⟩ := by
    intro hd
    simp [mirrorChart, hget, hbody, hd]
  refine ⟨?_, hne, ?_, fmtHex_alphabet _, fmtHex_length _⟩
  · by_cases hd : c.Digest = fmtHex (E.sha256 body)
    · simp [mirrorChart, hget, hbody, hd]
    · simp [hne hd, hd]
  · intro p hp hd
    rw [hne (by rw [hd]; exact append_ne_self p _ hp)]

/-- C5 on `quietEnv`, where every body hashes to `ab01`: the digest `ab01` is accepted, the
same hash in upper case and the hash behind the prefix `sha256:` are rejected. -/
theorem mirrorChart_digest_witness :
    (mirrorChart quietEnv "http://charts.src" "http://charts.dst" ⟨"web", "ab01", "1.0"⟩ ()).val =
      none ∧
    (mirrorChart quietEnv "http://charts.src" "http://charts.dst" ⟨"web", "AB01", "1.0"⟩ ()).val =
      some (Err.digestMismatch ⟨"web", "AB01", "1.0"⟩ "AB01" "ab01") ∧
    (mirrorChart quietEnv "http://charts.src" "http://charts.dst"
      ⟨"web", "sha256:ab01", "1.0"⟩ ()).val =
      some (Err.digestMismatch ⟨"web", "sha256:ab01", "1.0"⟩ "sha256:ab01" "ab01") :=
  ⟨(mirrorChart_digest quietEnv "http://charts.src" "http://charts.dst" ⟨"web", "ab01", "1.0"⟩
      () () () [] rfl rfl).1.2 rfl,
    congrArg Out.val ((mirrorChart_digest quietEnv "http://charts.src" "http://charts.dst"
      ⟨"web", "AB01", "1.0"⟩ () () () [] rfl rfl).2.1 (by decide)),
    (mirrorChart_digest quietEnv "http://charts.src" "http://charts.dst"
      ⟨"web", "sha256:ab01", "1.0"⟩ () () () [] rfl rfl).2.2.1 "sha256:" (by decide) rfl⟩

/-- C6: in a pass with the key ring `k` whose head `h` differs from the checkpoint `c`, if
the head commit carries no signature or its verification against `k` reports an error,
`synchronize` returns `c` with an error after the clone, the head resolution and the
signature check alone: the manifest is not opened, read or decoded and no mirror is
invoked.  Without a key ring no pass looks up or verifies a commit. -/
theorem synchronize_signature_gate {W : Type} (E : Env W) (cfg : Config) (c k : String)
    (w w2 w3 : W) (h : String) (commit : Commit)
    (hhead : E.repoHead (E.gitClone cfg.manifestGitRepository 1 w).2 = (Except.ok h, w2))
    (hne : h ≠ c)
    (hcommit : E.commitObject h w2 = (Except.ok commit, w3))
    (hbad : commit.PGPSignature = "" ∨ ∃ e, (E.commitVerify commit k w3).1 = some e) :
    (∃ e, (synchronize E cfg c (some k) w).val = (c, some e)) ∧
    (commit.PGPSignature = "" →
      (synchronize E cfg c (some k) w).val = (c, some (Err.commitNotSigned commit.ID))) ∧
    (∀ ev ∈ (synchronize E cfg c (some k) w).trace,
      ev.stage = Stage.head ∨ ev.stage = Stage.signature) ∧
    invocations (synchronize E cfg c (some k) w).trace = [] ∧
    (∀ (c1 : String) (w1 : W), ∀ ev ∈ (synchronize E cfg c1 none w1).trace,
      ev.stage ≠ Stage.signature) := by
  rcases h1 : E.gitClone cfg.manifestGitRepository 1 w with ⟨ce, wc⟩
  rw [h1] at hhead
  have hstage : ∀ ev ∈ (synchronize E cfg c (some k) w).trace,
      ev.stage = Stage.head ∨ ev.stage = Stage.signature := by
    by_cases hs : commit.PGPSignature = ""
    · simp [synchronize, resolve, verifyHead, h1, hhead, hne, hcommit, hs, Event.stage]
    · rcases hbad with hs1 | ⟨e, he⟩
      · exact absurd hs1 hs
      · rcases hv : E.commitVerify commit k w3 with ⟨r, w4⟩
        rw [hv] at he
        simp only at he
        subst he
        simp [synchronize, resolve, verifyHead, h1, hhead, hne, hcommit, hs, hv, Event.stage]
  refine ⟨?_, ?_, hstage, ?_, ?_⟩
  · by_cases hs : commit.PGPSignature = ""
    · exact ⟨Err.commitNotSigned commit.ID, by
        simp [synchronize, resolve, verifyHead, h1, hhead, hne, hcommit, hs]⟩
    · rcases hbad with hs1 | ⟨e, he⟩
      · exact absurd hs1 hs
      · rcases hv : E.commitVerify commit k w3 with ⟨r, w4⟩
        rw [hv] at he
        simp only at he
        subst he
        exact ⟨e, by simp [synchronize, resolve, verifyHead, h1, hhead, hne, hcommit, hs, hv]⟩
  · intro hs
    simp [synchronize, resolve, verifyHead, h1, hhead, hne, hcommit, hs]
  · apply invocations_eq_nil_of_stage
    intro ev hev
    rcases hstage ev hev with h | h
    · exact Or.inl h
    · exact Or.inr (Or.inl h)
  · intro c1 w1 ev hev
    rcases synchronize_trace_mem E cfg c1 none w1 ev hev with
      h | ⟨h, m, -, h | ⟨-, h | ⟨-, h⟩⟩⟩
    · rcases resolve_stage_none E cfg c1 w1 ev h with h | h <;> simp [h]
    · simp [passImages_stage E cfg c1 none w1 m ev h]
    · simp [passCharts_stage E cfg c1 none w1 m ev h]
    · simp [passYggdrasil_stage E cfg c1 none w1 m ev h]

/-- C6 on `unsignedEnv`: with a key ring the pass over the unsigned head `h1` fails and
returns the previous checkpoint. -/
theorem synchronize_signature_gate_witness :
    (synchronize unsignedEnv sampleConfig "h0" (some "keyring") ()).val =
      ("h0", some (Err.commitNotSigned "h1")) ∧
    invocations (synchronize unsignedEnv sampleConfig "h0" (some "keyring") ()).trace = [] :=
  ⟨(synchronize_signature_gate unsignedEnv sampleConfig "h0" "keyring" () () () "h1"
      ⟨"h1", ""⟩ rfl (by decide) rfl (Or.inl rfl)).2.1 rfl,
    (synchronize_signature_gate unsignedEnv sampleConfig "h0" "keyring" () () () "h1"
      ⟨"h1", ""⟩ rfl (by decide) rfl (Or.inl rfl)).2.2.2.1⟩

/-- C7: when the source chart repository answers the fetch of a chart with a status other
than 200, `mirrorChart` returns the not-found error after the fetch alone, without reading
or hashing the body; a pass in which this happens returns the previous checkpoint with
the not-found error of a chart of its manifest, makes no call of the repository mirror, and
the loop of `main` keeps the checkpoint. -/
theorem mirrorChart_not_found {W : Type} (E : Env W) (cfg : Config) (c0 : String)
    (keyRing : Option String) (w : W) :
    (∀ (src dst : String) (c : chart) (wa wb : W) (status : Nat),
      E.httpGet (chartURL src c) wa = (Except.ok status, wb) → status ≠ 200 →
      mirrorChart E src dst c wa =
        ⟨some (Err.chartNotFound c src), wb,
          [Event.httpGet (chartURL src c) (Except.ok status),
           Event.mirrorChart src dst c (some (Err.chartNotFound c src))]⟩) ∧
    ((∃ ev ∈ (synchronize E cfg c0 keyRing w).trace, ev.isChartMiss = true) →
      (∃ h m c, (resolve E cfg c0 keyRing w).val = Resolution.resolved h m ∧ c ∈ m.Charts ∧
        (synchronize E cfg c0 keyRing w).val =
          (c0, some (Err.chartNotFound c cfg.sourceChartRepository))) ∧
      (∀ ev ∈ (synchronize E cfg c0 keyRing w).trace, ev.stage ≠ Stage.yggdrasil) ∧
      (tick E cfg keyRing c0 w).val = c0) := by
  constructor
  · intro src dst c wa wb status hget hst
    simp [mirrorChart, hget, hst]
  · rintro ⟨ev, hev, hmiss⟩
    have hst := isChartMiss_stage ev hmiss
    have hkey : ∃ h m c, (resolve E cfg c0 keyRing w).val = Resolution.resolved h m ∧
        c ∈ m.Charts ∧ (passImages E cfg c0 keyRing w m).val = none ∧
        (passCharts E cfg c0 keyRing w m).val =
          some (Err.chartNotFound c cfg.sourceChartRepository) := by
      rcases synchronize_trace_mem E cfg c0 keyRing w ev hev with
        hm | ⟨hh, m, hr, hm | ⟨h2, hm | ⟨-, hm⟩⟩⟩
      · rcases resolve_stage E cfg c0 keyRing w ev hm with h | h | h <;> simp [h] at hst
      · have := passImages_stage E cfg c0 keyRing w m ev hm
        simp [this] at hst
      · obtain ⟨c, hc, hv⟩ := mirrorCharts_miss E cfg.sourceChartRepository
          cfg.destinationChartRepository m.Charts (passImages E cfg c0 keyRing w m).world
          ⟨ev, hm, hmiss⟩
        exact ⟨hh, m, c, hr, hc, h2, hv⟩
      · have := passYggdrasil_stage E cfg c0 keyRing w m ev hm
        simp [this] at hst
    obtain ⟨h, m, c, hr, hc, h2, h3⟩ := hkey
    have hval : (synchronize E cfg c0 keyRing w).val =
        (c0, some (Err.chartNotFound c cfg.sourceChartRepository)) := by
      rw [synchronize_eq, hr]
      simp only [h2, h3]
    refine ⟨⟨h, m, c, hr, hc, hval⟩, ?_, ?_⟩
    · intro ev1 hev1
      rw [synchronize_eq, hr] at hev1
      simp only [h2, h3, List.mem_append] at hev1
      rcases hev1 with (h | h) | h
      · rcases resolve_stage E cfg c0 keyRing w ev1 h with h | h | h <;> simp [h]
      · simp [passImages_stage E cfg c0 keyRing w m ev1 h]
      · simp [passCharts_stage E cfg c0 keyRing w m ev1 h]
    · rw [tick_eq, hval]

/-- C7 on `chartMissingEnv`, where the chart repository answers 404: the pass from the
checkpoint `h0` fails with the not-found error of the chart `web` and keeps `h0`. -/
theorem mirrorChart_not_found_witness :
    (synchronize chartMissingEnv sampleConfig "h0" none ()).val =
      ("h0", some (Err.chartNotFound ⟨"web", "ab01", "1.0"⟩ "http://charts.src")) ∧
    (∀ ev ∈ (synchronize chartMissingEnv sampleConfig "h0" none ()).trace,
      ev.stage ≠ Stage.yggdrasil) ∧
    (tick chartMissingEnv sampleConfig none "h0" ()).val = "h0" :=
  ⟨rfl,
    ((mirrorChart_not_found chartMissingEnv sampleConfig "h0" none ()).2
      ⟨Event.httpGet "http://charts.src/web-1.0.tgz" (Except.ok 404), by
        simp [synchronize, resolve, verifyHead, readManifest, mirrorImages, mirrorImage,
          mirrorCharts, mirrorChart, chartMissingEnv, quietEnv, sampleManifest, sampleConfig,
          chartURL], rfl⟩).2⟩

/-- C8: when the first of a row of ticks of the loop of `main` completes without error and
every tick of the row observes the manifest head `h`, the checkpoint after the first tick
is `h`, and each later tick leaves it at `h` after the clone and the head resolution
alone, with no mirror invocation; this holds for any number `n` of later ticks. -/
theorem ticks_idempotent {W : Type} (E : Env W) (cfg : Config) (keyRing : Option String)
    (c h : String) (w : W) (n : Nat)
    (hobs : ∀ o ∈ ticks E cfg keyRing (n + 1) c w, Event.repoHead (Except.ok h) ∈ o.trace)
    (hok : (synchronize E cfg c keyRing w).val.2 = none) :
    (tick E cfg keyRing c w).val = h ∧
    ∀ o ∈ ticks E cfg keyRing n (tick E cfg keyRing c w).val (tick E cfg keyRing c w).world,
      o.val = h ∧ invocations o.trace = [] ∧ ∀ ev ∈ o.trace, ev.stage = Stage.head := by
  have h1 : (tick E cfg keyRing c w).val = h := by
    have hhead := tick_trace_head E cfg c keyRing w _ (hobs _ (by simp [ticks]))
    have hval := synchronize_ok_head E cfg c keyRing w hok
    rw [hhead] at hval
    rw [tick_eq, hok]
    simp only [Except.ok.injEq] at hval
    exact hval.symm
  refine ⟨h1, ?_⟩
  rw [h1]
  apply ticks_unchanged
  intro o ho
  apply hobs
  simp only [ticks, List.mem_cons]
  right
  rw [h1]
  exact ho

/-- C8 on `quietEnv`, whose head stays `h1`: the first tick from the empty checkpoint
mirrors everything and ends with `h1`, the second makes no mirror invocation and ends with
`h1`. -/
theorem ticks_idempotent_witness :
    (synchronize quietEnv sampleConfig "" none ()).val.2 = none ∧
    (tick quietEnv sampleConfig none "" ()).val = "h1" ∧
    ∀ o ∈ ticks quietEnv sampleConfig none 1 (tick quietEnv sampleConfig none "" ()).val
        (tick quietEnv sampleConfig none "" ()).world,
      o.val = "h1" ∧ invocations o.trace = [] ∧ ∀ ev ∈ o.trace, ev.stage = Stage.head :=
  ⟨rfl, ticks_idempotent quietEnv sampleConfig none "" "h1" () 1
    (by
      intro o ho
      simp only [ticks, List.mem_cons, List.mem_singleton, List.not_mem_nil, or_false] at ho
      rcases ho with ho | ho <;> subst ho <;> exact List.Mem.tail _ (List.Mem.head _))
    rfl⟩

/-- C10: `mirrorYggdrasil` initialises a repository, creates the remote `src` for the
source and the remote `dst` for the destination, fetches the referenced commit from `src`
and force-pushes `FETCH_HEAD` to `refs/heads/master` of `dst`.  When the fetch fails it
returns that error without pushing; it returns whatever the forced push returns; but when
the creation of the remote `src` or of the remote `dst` fails it returns no error and
makes no fetch and no push.  So a pass whose resolution, image stage and chart stage
succeeded and in which a remote creation fails still returns the new head hash, the loop
of `main` advances the checkpoint to it, and the pass has made no fetch and no push. -/
theorem mirrorYggdrasil_remote_creation {W : Type} (E : Env W) (cfg : Config) (c : String)
    (keyRing : Option String) (w : W) :
    (∀ (src dst : String) (y : yggdrasilRepository) (w0 w1 w2 : W) (e : Err),
      E.gitInit w0 = (none, w1) → E.createRemote "src" src w1 = (some e, w2) →
      mirrorYggdrasil E src dst y w0 =
        ⟨none, w2,
          [Event.gitInit none, Event.createRemote "src" src (some e),
           Event.mirrorYggdrasil src dst y none]⟩) ∧
    (∀ (src dst : String) (y : yggdrasilRepository) (w0 w1 w2 w3 : W) (e : Err),
      E.gitInit w0 = (none, w1) → E.createRemote "src" src w1 = (none, w2) →
      E.createRemote "dst" dst w2 = (some e, w3) →
      mirrorYggdrasil E src dst y w0 =
        ⟨none, w3,
          [Event.gitInit none, Event.createRemote "src" src none,
           Event.createRemote "dst" dst (some e), Event.mirrorYggdrasil src dst y none]⟩) ∧
    (∀ (src dst : String) (y : yggdrasilRepository) (w0 w1 w2 w3 w4 : W) (e : Err),
      E.gitInit w0 = (none, w1) → E.createRemote "src" src w1 = (none, w2) →
      E.createRemote "dst" dst w2 = (none, w3) →
      E.gitFetch "src" (y.Commit ++ ":FETCH_HEAD") w3 = (some e, w4) →
      mirrorYggdrasil E src dst y w0 =
        ⟨some e, w4,
          [Event.gitInit none, Event.createRemote "src" src none,
           Event.createRemote "dst" dst none,
           Event.gitFetch "src" (y.Commit ++ ":FETCH_HEAD") (some e),
           Event.mirrorYggdrasil src dst y (some e)]⟩) ∧
    (∀ (src dst : String) (y : yggdrasilRepository) (w0 w1 w2 w3 w4 w5 : W) (r : Option Err),
      E.gitInit w0 = (none, w1) → E.createRemote "src" src w1 = (none, w2) →
      E.createRemote "dst" dst w2 = (none, w3) →
      E.gitFetch "src" (y.Commit ++ ":FETCH_HEAD") w3 = (none, w4) →
      E.gitPush "dst" "FETCH_HEAD:refs/heads/master" true w4 = (r, w5) →
      mirrorYggdrasil E src dst y w0 =
        ⟨r, w5,
          [Event.gitInit none, Event.createRemote "src" src none,
           Event.createRemote "dst" dst none,
           Event.gitFetch "src" (y.Commit ++ ":FETCH_HEAD") none,
           Event.gitPush "dst" "FETCH_HEAD:refs/heads/master" true r,
           Event.mirrorYggdrasil src dst y r]⟩) ∧
    (∀ (h : String) (m : manifest) (w1 w2 : W) (e : Err),
      (resolve E cfg c keyRing w).val = Resolution.resolved h m →
      (passImages E cfg c keyRing w m).val = none →
      (passCharts E cfg c keyRing w m).val = none →
      E.gitInit (passCharts E cfg c keyRing w m).world = (none, w1) →
      (E.createRemote "src" cfg.sourceYggdrasilGitRepository w1 = (some e, w2) ∨
        (E.createRemote "src" cfg.sourceYggdrasilGitRepository w1 = (none, w2) ∧
          (E.createRemote "dst" cfg.destinationYggdrasilGitRepository w2).1 = some e)) →
      (synchronize E cfg c keyRing w).val = (h, none) ∧ h ≠ c ∧
      (tick E cfg keyRing c w).val = h ∧
      ∀ ev ∈ (synchronize E cfg c keyRing w).trace, ev.isTransfer = false) := by
  refine ⟨?_, ?_, ?_, ?_, ?_⟩
  · intro src dst y w0 w1 w2 e hi hs
    simp [mirrorYggdrasil, hi, hs]
  · intro src dst y w0 w1 w2 w3 e hi hs hd
    simp [mirrorYggdrasil, hi, hs, hd]
  · intro src dst y w0 w1 w2 w3 w4 e hi hs hd hf
    simp [mirrorYggdrasil, fetchRefSpec, hi, hs, hd, hf]
  · intro src dst y w0 w1 w2 w3 w4 w5 r hi hs hd hf hp
    simp [mirrorYggdrasil, fetchRefSpec, hi, hs, hd, hf, hp]
  · intro h m w1 w2 e hr h2 h3 hi hrem
    have h4 : (passYggdrasil E cfg c keyRing w m).val = none ∧
        ∀ ev ∈ (passYggdrasil E cfg c keyRing w m).trace, ev.isTransfer = false := by
      unfold passYggdrasil
      rcases hrem with hs | ⟨hs, hd⟩
      · simp [mirrorYggdrasil, hi, hs, Event.isTransfer]
      · rcases hd2 : E.createRemote "dst" cfg.destinationYggdrasilGitRepository w2 with
          ⟨r, w3⟩
        rw [hd2] at hd
        simp only at hd
        subst hd
        simp [mirrorYggdrasil, hi, hs, hd2, Event.isTransfer]
    have hval : (synchronize E cfg c keyRing w).val = (h, none) := by
      rw [synchronize_eq, hr]
      simp only [h2, h3]
      rw [h4.1]
    refine ⟨hval, resolve_resolved_ne E cfg c keyRing w h m hr, by rw [tick_eq, hval], ?_⟩
    intro ev hev
    rcases synchronize_trace_mem E cfg c keyRing w ev hev with
      hm | ⟨hh, m1, hr1, hm⟩
    · cases ht : ev.isTransfer with
      | false => rfl
      | true =>
        have := isTransfer_stage ev ht
        rcases resolve_stage E cfg c keyRing w ev hm with h | h | h <;> simp [h] at this
    · rw [hr] at hr1
      cases hr1
      cases ht : ev.isTransfer with
      | false => rfl
      | true =>
        have hst := isTransfer_stage ev ht
        rcases hm with hm | ⟨-, hm | ⟨-, hm⟩⟩
        · simp [passImages_stage E cfg c keyRing w m ev hm] at hst
        · simp [passCharts_stage E cfg c keyRing w m ev hm] at hst
        · rw [h4.2 ev hm] at ht
          cases ht

/-- C10 on the sample collaborators: over `srcRemoteFailsEnv` and over `remoteFailsEnv`
the mirror returns no error after the failed remote creation; over `fetchFailsEnv` it
returns the error of the fetch from `src`; over `pushFailsEnv` it returns the error of the
forced push to `dst`; and over `remoteFailsEnv` the pass from the checkpoint `h0` returns
the head `h1` with no error and the checkpoint advances, with no fetch and no push made. -/
theorem mirrorYggdrasil_remote_creation_witness :
    (mirrorYggdrasil srcRemoteFailsEnv "git://src/y" "git://dst/y"
      ⟨"deadbeef", "git://src/y"⟩ ()).val = none ∧
    (mirrorYggdrasil remoteFailsEnv "git://src/y" "git://dst/y"
      ⟨"deadbeef", "git://src/y"⟩ ()).val = none ∧
    mirrorYggdrasil fetchFailsEnv "git://src/y" "git://dst/y" ⟨"deadbeef", "git://src/y"⟩ () =
      ⟨some (Err.external "reference not found"), (),
        [Event.gitInit none, Event.createRemote "src" "git://src/y" none,
         Event.createRemote "dst" "git://dst/y" none,
         Event.gitFetch "src" "deadbeef:FETCH_HEAD" (some (Err.external "reference not found")),
         Event.mirrorYggdrasil "git://src/y" "git://dst/y" ⟨"deadbeef", "git://src/y"⟩
           (some (Err.external "reference not found"))]⟩ ∧
    mirrorYggdrasil pushFailsEnv "git://src/y" "git://dst/y" ⟨"deadbeef", "git://src/y"⟩ () =
      ⟨some (Err.external "authentication required"), (),
        [Event.gitInit none, Event.createRemote "src" "git://src/y" none,
         Event.createRemote "dst" "git://dst/y" none,
         Event.gitFetch "src" "deadbeef:FETCH_HEAD" none,
         Event.gitPush "dst" "FETCH_HEAD:refs/heads/master" true
           (some (Err.external "authentication required")),
         Event.mirrorYggdrasil "git://src/y" "git://dst/y" ⟨"deadbeef", "git://src/y"⟩
           (some (Err.external "authentication required"))]⟩ ∧
    ((synchronize remoteFailsEnv sampleConfig "h0" none ()).val = ("h1", none) ∧
      "h1" ≠ "h0" ∧
      (tick remoteFailsEnv sampleConfig none "h0" ()).val = "h1" ∧
      ∀ ev ∈ (synchronize remoteFailsEnv sampleConfig "h0" none ()).trace,
        ev.isTransfer = false) :=
  ⟨congrArg Out.val
      ((mirrorYggdrasil_remote_creation srcRemoteFailsEnv sampleConfig "h0" none ()).1
        "git://src/y" "git://dst/y" ⟨"deadbeef", "git://src/y"⟩ () () ()
        (Err.external "remote already exists") rfl rfl),
    congrArg Out.val
      ((mirrorYggdrasil_remote_creation remoteFailsEnv sampleConfig "h0" none ()).2.1
        "git://src/y" "git://dst/y" ⟨"deadbeef", "git://src/y"⟩ () () () ()
        (Err.external "remote already exists") rfl rfl rfl),
    (mirrorYggdrasil_remote_creation fetchFailsEnv sampleConfig "h0" none ()).2.2.1
      "git://src/y" "git://dst/y" ⟨"deadbeef", "git://src/y"⟩ () () () () ()
      (Err.external "reference not found") rfl rfl rfl rfl,
    (mirrorYggdrasil_remote_creation pushFailsEnv sampleConfig "h0" none ()).2.2.2.1
      "git://src/y" "git://dst/y" ⟨"deadbeef", "git://src/y"⟩ () () () () () ()
      (some (Err.external "authentication required")) rfl rfl rfl rfl rfl,
    (mirrorYggdrasil_remote_creation remoteFailsEnv sampleConfig "h0" none ()).2.2.2.2
      "h1" sampleManifest () () (Err.external "remote already exists") rfl rfl rfl rfl
      (Or.inr ⟨rfl, rfl⟩)⟩

/-- C3 at the untagged image `r/a@sha256:AAA` with the source registry `src.example` and
the destination registry `dst.example`: the destination address `mirrorImage` passes to
the copy tool is the source address `src.example/r/a@sha256:AAA`, not
`dst.example/r/a@sha256:AAA`; with the tag `v1` it is `dst.example/r/a:v1`. -/
theorem mirrorImage_untagged_destination :
    srcImage "src.example" ⟨"sha256:AAA", "a", "r", ""⟩ = "src.example/r/a@sha256:AAA" ∧
    dstImage "src.example" "dst.example" ⟨"sha256:AAA", "a", "r", ""⟩ =
      "src.example/r/a@sha256:AAA" ∧
    dstImage "src.example" "dst.example" ⟨"sha256:AAA", "a", "r", ""⟩ ≠
      "dst.example/r/a@sha256:AAA" ∧
    skopeoArgs "src.example" "dst.example" ⟨"sha256:AAA", "a", "r", ""⟩ =
      ["copy", "--all", "--preserve-digests", "--src-tls-verify=false",
        "--dest-tls-verify=false", "docker://src.example/r/a@sha256:AAA",
        "docker://src.example/r/a@sha256:AAA"] ∧
    (mirrorImage quietEnv "src.example" "dst.example" ⟨"sha256:AAA", "a", "r", ""⟩ ()).trace =
      [Event.combinedOutput "skopeo"
        (skopeoArgs "src.example" "dst.example" ⟨"sha256:AAA", "a", "r", ""⟩) "" none,
       Event.mirrorImage "src.example" "dst.example" ⟨"sha256:AAA", "a", "r", ""⟩ none] ∧
    dstImage "src.example" "dst.example" ⟨"sha256:AAA", "a", "r", "v1"⟩ =
      "dst.example/r/a:v1" := by
  refine ⟨by decide, by decide, by decide, by decide, rfl, by decide⟩

/-- C9 on `cloneFailsEnv`, where the clone of the manifest repository reports an error and
the head still resolves to `h1`: the pass from the checkpoint `h0` returns `h1` with no
error, invokes every planned mirror, and the loop of `main` advances the checkpoint; the
pass from the checkpoint `h1` returns `h1` with no error as if nothing had failed. -/
theorem synchronize_clone_error_dropped :
    (cloneFailsEnv.gitClone sampleConfig.manifestGitRepository 1 ()).1 =
      some (Err.external "worktree checkout failed") ∧
    (synchronize cloneFailsEnv sampleConfig "h0" none ()).val = ("h1", none) ∧
    invocations (synchronize cloneFailsEnv sampleConfig "h0" none ()).trace =
      (plannedCalls sampleManifest).map (fun call => (call, none)) ∧
    (tick cloneFailsEnv sampleConfig none "h0" ()).val = "h1" ∧
    (synchronize cloneFailsEnv sampleConfig "h1" none ()).val = ("h1", none) := by
  refine ⟨by decide, by decide, by decide, by decide, by decide⟩

end Syncctl
